import Mathlib

/-!
Verification of the flappy window-vent simulator physics engine.

The development shallowly embeds the two physics-engine variants found in
`hooks/useSimulationPhysics.ts` together with the pure geometry utilities of
`utils/geometry.ts`:

* `VariantA` — the gap-height variant: analytic shaft-collision solve,
  forward kinematics by circle/vertical-line intersection
  (`solveKinematics`), and inverse kinematics by circle-circle
  intersection (`solveAngleFromNutY`).
* `VariantB` — the flap-height/motor-spacing variant: forward kinematics by
  rotation (`solveKinematics`), a battery of collision predicates
  (`checkCollision`: distance check, half-plane corner check, SAT
  polygon test) and the linear angle scan (`maxAngleDeg`).

JavaScript numbers are modelled by exact real numbers (the scan grid of
0.5-degree steps is exactly representable in binary floating point, so the
grid itself is faithful); the purely rational SAT test is additionally kept
polymorphic so that it can be executed over `ℚ`.
-/

namespace FlapSim

/-- A 2D point, `types.ts` `Point`, kept polymorphic in the scalar type. -/
structure Pt (α : Type) where
  x : α
  y : α
deriving Repr, DecidableEq

variable {α : Type} [LinearOrderedField α]

/-- Dot product of a vertex with an axis, as computed inside
`projectPolygon` in `utils/geometry.ts` (`p.x * axis.x + p.y * axis.y`). -/
def dotAxis (p axis : Pt α) : α :=
  p.x * axis.x + p.y * axis.y

/-- `projectPolygon` of `utils/geometry.ts`: projects a polygon onto an axis
and returns the (min, max) scalar values of the vertex dot products. The
source initialises `min` to `Infinity` and `max` to `-Infinity` and folds
over the vertices; for a nonempty vertex list (all polygons built by the
program have four vertices) this equals folding `min`/`max` from the first
dot product, which is how it is written here. -/
def projectPolygon (poly : List (Pt α)) (axis : Pt α) : α × α :=
  match poly.map (fun p => dotAxis p axis) with
  | [] => (0, 0)
  | d :: ds => (ds.foldl min d, ds.foldl max d)

/-- `isGap` of `utils/geometry.ts`: the two projected intervals are disjoint,
with strict comparisons `projA.max < projB.min || projB.max < projA.min`. -/
def isGap (polyA polyB : List (Pt α)) (axis : Pt α) : Bool :=
  let projA := projectPolygon polyA axis
  let projB := projectPolygon polyB axis
  decide (projA.2 < projB.1) || decide (projB.2 < projA.1)

/-- The outward edge normal `(-(p2.y - p1.y), p2.x - p1.x)` used by
`polygonsIntersect`. -/
def edgeNormal (p1 p2 : Pt α) : Pt α :=
  ⟨-(p2.y - p1.y), p2.x - p1.x⟩

/-- The list of edge normals of a polygon, indexing edges exactly as the
`for` loops of `polygonsIntersect` do (vertex `i` to vertex `(i+1) % n`). -/
def axesOf (poly : List (Pt α)) : List (Pt α) :=
  (List.range poly.length).map fun i =>
    edgeNormal (poly.getD i ⟨0, 0⟩) (poly.getD ((i + 1) % poly.length) ⟨0, 0⟩)

/-- `polygonsIntersect` of `utils/geometry.ts`: tests every edge normal of
both polygons and returns `false` as soon as one axis shows a gap, `true`
if no axis does. Returning `false` on the first gap of the source's two
sequential loops is the same boolean as: every axis of the concatenated
axis list shows no gap. -/
def polygonsIntersect (polyA polyB : List (Pt α)) : Bool :=
  (axesOf polyA ++ axesOf polyB).all fun axis => !(isGap polyA polyB axis)

/-- An axis-aligned unit square with lower-left corner at `(ox, 0)`, listed
in the same winding order as the polygons built by the simulator. -/
def unitSquareAt (ox : ℚ) : List (Pt ℚ) :=
  [⟨ox, 0⟩, ⟨ox + 1, 0⟩, ⟨ox + 1, 1⟩, ⟨ox, 1⟩]

/-- `Math.atan2 y x`, modelled as the argument of the complex number
`x + y·i`, which has the same range `(-π, π]` and the same value `0` at the
origin. -/
noncomputable def atan2 (y x : ℝ) : ℝ :=
  Complex.arg ⟨x, y⟩

/-- `rotatePoint` of `utils/geometry.ts`: rotate `p` around `center` by
`radians`. -/
noncomputable def rotatePoint (p center : Pt ℝ) (radians : ℝ) : Pt ℝ :=
  let c := Real.cos radians
  let s := Real.sin radians
  let dx := p.x - center.x
  let dy := p.y - center.y
  ⟨c * dx - s * dy + center.x, s * dx + c * dy + center.y⟩

/-- `getDistance` of `utils/geometry.ts` (`Math.hypot`). -/
noncomputable def getDistance (p1 p2 : Pt ℝ) : ℝ :=
  Real.sqrt ((p2.x - p1.x) ^ 2 + (p2.y - p1.y) ^ 2)

/-- `getAngle` of `utils/geometry.ts`: angle of the vector from `p1` to
`p2`. -/
noncomputable def getAngle (p1 p2 : Pt ℝ) : ℝ :=
  atan2 (p2.y - p1.y) (p2.x - p1.x)

namespace VariantA

/-!
The gap-height variant of `useSimulationPhysics.ts`, with its `constants.ts`:
`LAYOUT.ORIGIN_X = 680`, `TOP_MARGIN = 40`, `TOP_PANEL_H = 80`,
`FRAME.WIDTH = 40`, `THICKNESS = 4`, `INSULATION.THICKNESS = 24`,
`MECHANICS.OVERLAP_TOP = 20`, `OVERLAP_BOTTOM = 20`, `FLAP_HEADROOM = 15`,
`BAR_WIDTH = 14`, `LINK_LENGTH = 70`, `PIVOT_OFFSET_Y = 25`,
`MOTOR.HEIGHT = 50`, `ROD_THICKNESS = 6`, `SHAFT_END_CAP_H = 4`,
`DIST_BELOW_PIVOT = 30`, `HARDWARE.NUT_HEIGHT = 10`, `MAGNET_H = 10`,
`MAGNET_GAP = 15`, `CONSTRAINTS.COLLISION.SAFETY_MARGIN = 6`, and user
bounds `GAP_HEIGHT ∈ [60, 220]`, `MOTOR_SPACING ∈ [24, 60]`.
-/

/-- `SimulationConfig` of the gap-height variant (`types.ts`). -/
structure SimulationConfig where
  actuatorExtension : ℝ
  gapHeight : ℝ
  animationSpeed : ℝ
  motorSpacing : ℝ

/-- `MECHANICS.LINK_LENGTH` of this variant's `constants.ts`. -/
def LINK_LENGTH : ℝ := 70

/-- The static geometry record assembled by this variant's `staticGeo`
`useMemo` (the fields returned by the source, in source order). -/
structure StaticGeo where
  pivot : Pt ℝ
  motorPos : Pt ℝ
  flapMountRadius : ℝ
  flapMountBaseAngle : ℝ
  magnetY : ℝ
  strikerY : ℝ
  topPanelBottomY : ℝ
  topPanelTopY : ℝ
  botPanelTopY : ℝ
  mountHoleLocal : Pt ℝ
  maxAngleDeg : ℝ
  limitCollarY : ℝ
  shaftTopY : ℝ
  flapHeight : ℝ
  overlapTop : ℝ
  overlapBottom : ℝ
  barLength : ℝ
  bracketTopY : ℝ
  bracketBottomY : ℝ
  nutY_Open : ℝ
  nutY_Closed : ℝ
  screenRightX : ℝ
  screenTopY : ℝ
  screenBottomY : ℝ
  canvasHeight : ℝ
  insulationX : ℝ
  fixedPanelRightX : ℝ

/-!
The bindings of the `staticGeo` `useMemo` body of the gap-height variant,
lifted to named definitions in source order (each `const` of the source
becomes one definition, parameterised by the `useMemo` dependencies it
reads, `gapHeight` and/or `motorSpacing`).
-/

/-- `screenTopY = LAYOUT.TOP_MARGIN`. -/
def screenTopY : ℝ := 40

/-- `topPanelTopY = screenTopY + FRAME.THICKNESS`. -/
noncomputable def topPanelTopY : ℝ := screenTopY + 4

/-- `topPanelBottomY = topPanelTopY + LAYOUT.TOP_PANEL_H`. -/
noncomputable def topPanelBottomY : ℝ := topPanelTopY + 80

/-- `botPanelTopY = topPanelBottomY + gapHeight`. -/
noncomputable def botPanelTopY (gapHeight : ℝ) : ℝ := topPanelBottomY + gapHeight

/-- `flapTopY_Closed = topPanelBottomY - OVERLAP_TOP - FLAP_HEADROOM`. -/
noncomputable def flapTopY_Closed : ℝ := topPanelBottomY - 20 - 15

/-- `flapBottomY_Closed = botPanelTopY + OVERLAP_BOTTOM`. -/
noncomputable def flapBottomY_Closed (gapHeight : ℝ) : ℝ := botPanelTopY gapHeight + 20

/-- `flapHeight = flapBottomY_Closed - flapTopY_Closed`. -/
noncomputable def flapHeight (gapHeight : ℝ) : ℝ :=
  flapBottomY_Closed gapHeight - flapTopY_Closed

/-- `pivotY = flapBottomY_Closed + MECHANICS.PIVOT_OFFSET_Y`. -/
noncomputable def pivotY (gapHeight : ℝ) : ℝ := flapBottomY_Closed gapHeight + 25

/-- `motorCenterY = pivotY + MOTOR.DIST_BELOW_PIVOT`. -/
noncomputable def motorCenterY (gapHeight : ℝ) : ℝ := pivotY gapHeight + 30

/-- `screenRightX = LAYOUT.ORIGIN_X + FRAME.WIDTH`. -/
def screenRightX : ℝ := 680 + 40

/-- `frameCenterX = LAYOUT.ORIGIN_X + FRAME.WIDTH / 2`. -/
noncomputable def frameCenterX : ℝ := 680 + 40 / 2

/-- `fixedInsulationRightX = frameCenterX + INSULATION.THICKNESS / 2`. -/
noncomputable def fixedInsulationRightX : ℝ := frameCenterX + 24 / 2

/-- `fixedInsulationLeftX = frameCenterX - INSULATION.THICKNESS / 2`. -/
noncomputable def fixedInsulationLeftX : ℝ := frameCenterX - 24 / 2

/-- `flapRightX_Closed = fixedInsulationLeftX` (flush against the back
panel). -/
noncomputable def flapRightX_Closed : ℝ := fixedInsulationLeftX

/-- `flapLeftX_Closed = flapRightX_Closed - INSULATION.THICKNESS`. -/
noncomputable def flapLeftX_Closed : ℝ := flapRightX_Closed - 24

/-- `barRightX = flapLeftX_Closed`. -/
noncomputable def barRightX : ℝ := flapLeftX_Closed

/-- `barLeftX = barRightX - MECHANICS.BAR_WIDTH`. -/
noncomputable def barLeftX : ℝ := barRightX - 14

/-- `pivotX = barLeftX + MECHANICS.BAR_WIDTH / 2`. -/
noncomputable def pivotX : ℝ := barLeftX + 14 / 2

/-- `motorCenterX = pivotX - motorSpacing`. -/
noncomputable def motorCenterX (motorSpacing : ℝ) : ℝ := pivotX - motorSpacing

/-- `topHoleGlobalY_Closed = flapTopY_Closed + 12`. -/
noncomputable def topHoleGlobalY_Closed : ℝ := flapTopY_Closed + 12

/-- `mountHoleLocal = {x: 0, y: topHoleGlobalY_Closed - pivotY}`. -/
noncomputable def mountHoleLocal (gapHeight : ℝ) : Pt ℝ :=
  ⟨0, topHoleGlobalY_Closed - pivotY gapHeight⟩

/-- `flapMountRadius = Math.abs(mountHoleLocal.y)`. -/
noncomputable def flapMountRadius (gapHeight : ℝ) : ℝ := |(mountHoleLocal gapHeight).y|

/-- `flapMountBaseAngle = -Math.PI / 2`. -/
noncomputable def flapMountBaseAngle : ℝ := -(Real.pi / 2)

/-- `shaftRightX = motorCenterX + ROD_THICKNESS/2 + SHAFT_END_CAP_H/2`. -/
noncomputable def shaftRightX (motorSpacing : ℝ) : ℝ :=
  motorCenterX motorSpacing + 6 / 2 + 4 / 2

/-- `safetyX = shaftRightX + CONSTRAINTS.COLLISION.SAFETY_MARGIN`. -/
noncomputable def safetyX (motorSpacing : ℝ) : ℝ := shaftRightX motorSpacing + 6

/-- The analytic shaft-collision solve: `maxAngleDeg` starts at the `-45`
fallback and, when the circle arc meets the vertical line `x = safetyX`
(`|safetyX - pivotX| < flapMountRadius`), is replaced by the `asin` of the
clamped ratio, converted to degrees. -/
noncomputable def maxAngleDegSolved (gapHeight motorSpacing : ℝ) : ℝ :=
  if |safetyX motorSpacing - pivotX| < flapMountRadius gapHeight then
    let val := (safetyX motorSpacing - pivotX) / flapMountRadius gapHeight
    let clampedVal := max (-1) (min 1 val)
    let angleRelRad := Real.arcsin clampedVal
    angleRelRad * 180 / Real.pi
  else (-45)

/-- The clamped analytic maximum angle:
`maxAngleDeg = Math.max(-170, Math.min(0, maxAngleDeg))` applied to the
solved value (never tilt into the panel, hinge hard stop at -170). -/
noncomputable def maxAngleDegStatic (gapHeight motorSpacing : ℝ) : ℝ :=
  max (-170) (min 0 (maxAngleDegSolved gapHeight motorSpacing))

/-- `pinClosed = {x: pivotX, y: topHoleGlobalY_Closed}`. -/
noncomputable def pinClosed : Pt ℝ := ⟨pivotX, topHoleGlobalY_Closed⟩

/-- `dxClosed = Math.abs(motorCenterX - pinClosed.x)`. -/
noncomputable def dxClosed (motorSpacing : ℝ) : ℝ := |motorCenterX motorSpacing - pinClosed.x|

/-- `dyLinkClosed = Math.sqrt(Math.max(0, LINK_LENGTH**2 - dxClosed**2))`. -/
noncomputable def dyLinkClosed (motorSpacing : ℝ) : ℝ :=
  Real.sqrt (max 0 (LINK_LENGTH ^ 2 - dxClosed motorSpacing ^ 2))

/-- `nutY_Closed = pinClosed.y + dyLinkClosed`. -/
noncomputable def nutY_Closed (motorSpacing : ℝ) : ℝ := pinClosed.y + dyLinkClosed motorSpacing

/-- `maxRad = maxAngleDeg * Math.PI / 180`. -/
noncomputable def maxRad (gapHeight motorSpacing : ℝ) : ℝ :=
  maxAngleDegStatic gapHeight motorSpacing * Real.pi / 180

/-- `effAngle = maxRad + flapMountBaseAngle`. -/
noncomputable def effAngle (gapHeight motorSpacing : ℝ) : ℝ :=
  maxRad gapHeight motorSpacing + flapMountBaseAngle

/-- `pinOpen`: the mount pin rotated to the maximum open angle. -/
noncomputable def pinOpen (gapHeight motorSpacing : ℝ) : Pt ℝ :=
  ⟨pivotX + flapMountRadius gapHeight * Real.cos (effAngle gapHeight motorSpacing),
   pivotY gapHeight + flapMountRadius gapHeight * Real.sin (effAngle gapHeight motorSpacing)⟩

/-- `dxOpen = Math.abs(motorCenterX - pinOpen.x)`. -/
noncomputable def dxOpen (gapHeight motorSpacing : ℝ) : ℝ :=
  |motorCenterX motorSpacing - (pinOpen gapHeight motorSpacing).x|

/-- `dyLinkOpen = Math.sqrt(Math.max(0, LINK_LENGTH**2 - dxOpen**2))`. -/
noncomputable def dyLinkOpen (gapHeight motorSpacing : ℝ) : ℝ :=
  Real.sqrt (max 0 (LINK_LENGTH ^ 2 - dxOpen gapHeight motorSpacing ^ 2))

/-- `nutY_Open = pinOpen.y + dyLinkOpen`. -/
noncomputable def nutY_Open (gapHeight motorSpacing : ℝ) : ℝ :=
  (pinOpen gapHeight motorSpacing).y + dyLinkOpen gapHeight motorSpacing

/-- `shaftTopY = nutY_Closed - SHAFT_END_CAP_H - 10`. -/
noncomputable def shaftTopY (motorSpacing : ℝ) : ℝ := nutY_Closed motorSpacing - 4 - 10

/-- `limitCollarY = nutY_Open + NUT_HEIGHT/2`. -/
noncomputable def limitCollarY (gapHeight motorSpacing : ℝ) : ℝ :=
  nutY_Open gapHeight motorSpacing + 10 / 2

/-- `magnetY = topPanelBottomY - OVERLAP_TOP/2 - MAGNET_H/2 - MAGNET_GAP`. -/
noncomputable def magnetY : ℝ := topPanelBottomY - 20 / 2 - 10 / 2 - 15

/-- `visualBottomY = motorCenterY + MOTOR.HEIGHT/2 + 40`. -/
noncomputable def visualBottomY (gapHeight : ℝ) : ℝ := motorCenterY gapHeight + 50 / 2 + 40

/-- The `staticGeo` `useMemo` body of the gap-height variant, assembling
the record returned by the source from the definitions above, as a
function of its dependency array `[gapHeight, motorSpacing]`. -/
noncomputable def staticGeoCore (gapHeight motorSpacing : ℝ) : StaticGeo :=
  { pivot := ⟨pivotX, pivotY gapHeight⟩
    motorPos := ⟨motorCenterX motorSpacing, motorCenterY gapHeight⟩
    flapMountRadius := flapMountRadius gapHeight
    flapMountBaseAngle
    magnetY
    strikerY := magnetY
    topPanelBottomY, topPanelTopY
    botPanelTopY := botPanelTopY gapHeight
    mountHoleLocal := mountHoleLocal gapHeight
    maxAngleDeg := maxAngleDegStatic gapHeight motorSpacing
    limitCollarY := limitCollarY gapHeight motorSpacing
    shaftTopY := shaftTopY motorSpacing
    flapHeight := flapHeight gapHeight
    overlapTop := 20, overlapBottom := 20
    barLength := |(mountHoleLocal gapHeight).y| + 8       -- + BAR_EXTENSION_ABOVE
    bracketTopY := pivotY gapHeight, bracketBottomY := pivotY gapHeight
    nutY_Open := nutY_Open gapHeight motorSpacing
    nutY_Closed := nutY_Closed motorSpacing
    screenRightX, screenTopY
    screenBottomY := visualBottomY gapHeight
    canvasHeight := visualBottomY gapHeight + 50
    insulationX := fixedInsulationLeftX
    fixedPanelRightX := fixedInsulationRightX }

/-- `staticGeo` of the gap-height variant, recomputed when `gapHeight` or
`motorSpacing` change (its `useMemo` dependency array). -/
noncomputable def staticGeo (c : SimulationConfig) : StaticGeo :=
  staticGeoCore c.gapHeight c.motorSpacing

/-- The record returned by this variant's `solveKinematics`. -/
structure KinState where
  flapMount : Pt ℝ
  nut : Pt ℝ
  linkAngleDeg : ℝ

/-- `effectiveAngle = angleRad + staticGeo.flapMountBaseAngle` inside
`solveKinematics`. -/
noncomputable def effectiveAngle (angleDeg : ℝ) : ℝ :=
  angleDeg * Real.pi / 180 + flapMountBaseAngle

/-- `flapMount` inside `solveKinematics`: the mount pin rotated to the
candidate angle about the pivot. -/
noncomputable def flapMountAt (gapHeight angleDeg : ℝ) : Pt ℝ :=
  ⟨pivotX + flapMountRadius gapHeight * Real.cos (effectiveAngle angleDeg),
   pivotY gapHeight + flapMountRadius gapHeight * Real.sin (effectiveAngle angleDeg)⟩

/-- `dx = Math.abs(staticGeo.motorPos.x - flapMount.x)` inside
`solveKinematics`. -/
noncomputable def dxAt (gapHeight motorSpacing angleDeg : ℝ) : ℝ :=
  |motorCenterX motorSpacing - (flapMountAt gapHeight angleDeg).x|

/-- `dy = Math.sqrt(Math.max(0, linkSq - dxSq))` inside `solveKinematics`
(`linkSq = LINK_LENGTH ** 2`, `dxSq = dx * dx`). -/
noncomputable def dyAt (gapHeight motorSpacing angleDeg : ℝ) : ℝ :=
  Real.sqrt (max 0 (LINK_LENGTH ^ 2 - dxAt gapHeight motorSpacing angleDeg *
    dxAt gapHeight motorSpacing angleDeg))

/-- `nut = {x: staticGeo.motorPos.x, y: flapMount.y + dy}` inside
`solveKinematics`. -/
noncomputable def nutAt (gapHeight motorSpacing angleDeg : ℝ) : Pt ℝ :=
  ⟨motorCenterX motorSpacing, (flapMountAt gapHeight angleDeg).y + dyAt gapHeight motorSpacing angleDeg⟩

/-- `solveKinematics` of the gap-height variant: circle/vertical-line
intersection picking the root below the flap-mount pin, plus the link
angle for the renderer. -/
noncomputable def solveKinematics (c : SimulationConfig) (angleDeg : ℝ) : KinState :=
  let flapMount := flapMountAt c.gapHeight angleDeg
  let nut := nutAt c.gapHeight c.motorSpacing angleDeg
  ⟨flapMount, nut, atan2 (flapMount.y - nut.y) (flapMount.x - nut.x) * 180 / Real.pi⟩

/-- `closedState = solveKinematics(0)`. -/
noncomputable def closedState (c : SimulationConfig) : KinState :=
  solveKinematics c 0

/-- `openState = solveKinematics(staticGeo.maxAngleDeg)`. -/
noncomputable def openState (c : SimulationConfig) : KinState :=
  solveKinematics c (staticGeo c).maxAngleDeg

/-- `travelDist = openState.nut.y - closedState.nut.y`. -/
noncomputable def travelDist (c : SimulationConfig) : ℝ :=
  (openState c).nut.y - (closedState c).nut.y

/-- `currentNutY = closedState.nut.y + (actuatorExtension / 100) * travelDist`. -/
noncomputable def currentNutY (c : SimulationConfig) : ℝ :=
  (closedState c).nut.y + c.actuatorExtension / 100 * travelDist c

/-- `solveAngleFromNutY` of the gap-height variant: inverse kinematics by
circle-circle intersection, with the geometric-infeasibility guard
returning the fallback angle `0`. -/
noncomputable def solveAngleFromNutY (c : SimulationConfig) (targetY : ℝ) : ℝ :=
  let P := (staticGeo c).pivot
  let N : Pt ℝ := ⟨(staticGeo c).motorPos.x, targetY⟩
  let d := getDistance P N
  let r1 := (staticGeo c).flapMountRadius
  let r2 := LINK_LENGTH
  if d > r1 + r2 ∨ d < |r1 - r2| ∨ d = 0 then 0
  else
    let a := (r1 * r1 - r2 * r2 + d * d) / (2 * d)
    let h := Real.sqrt (max 0 (r1 * r1 - a * a))
    let x2 := P.x + a * (N.x - P.x) / d
    let y2 := P.y + a * (N.y - P.y) / d
    let x3_2 := x2 - h * (N.y - P.y) / d
    let y3_2 := y2 + h * (N.x - P.x) / d
    let angle2 := atan2 (y3_2 - P.y) (x3_2 - P.x) - (staticGeo c).flapMountBaseAngle
    angle2 * 180 / Real.pi

/-- `currentAngleDeg = solveAngleFromNutY(currentNutY)` (inverse mapping of
the extension percentage through the interpolated nut position). -/
noncomputable def currentAngleDeg (c : SimulationConfig) : ℝ :=
  solveAngleFromNutY c (currentNutY c)

/-- The declared user-input bounds of this variant
(`CONSTRAINTS.GAP_HEIGHT`, `CONSTRAINTS.MOTOR_SPACING`). -/
def InBounds (c : SimulationConfig) : Prop :=
  60 ≤ c.gapHeight ∧ c.gapHeight ≤ 220 ∧ 24 ≤ c.motorSpacing ∧ c.motorSpacing ≤ 60

end VariantA

namespace VariantB

/-!
The flap-height variant of `useSimulationPhysics.ts`, with its
`constants.ts`: `LAYOUT.ORIGIN_X = 650`, `TOP_MARGIN = 20`,
`FRAME.WIDTH = 35`, `THICKNESS = 4`, `CHANNEL_DEPTH = 25`,
`INSULATION.THICKNESS = 20`, `MECHANICS.FLAP_OFFSET_Y = 25`,
`OVERLAP_REGION = 60`, `BRACKET_WIDTH = 15`, `BRACKET_LENGTH = 60`,
`MOUNT_HEIGHT = 20`, `MOUNT_MARGIN_TOP = 20`, `MOTOR.WIDTH = 50`,
`HEIGHT = 40`, `HINGE_THICKNESS = 5`, `HINGE_LEAF_LENGTH = 70`,
`ROD_THICKNESS = 8`, `HARDWARE.NUT_WIDTH = 18`,
`CONSTRAINTS.COLLISION = {START_ANGLE: 0, END_ANGLE: -160, PRECISION: 0.5}`
and user bounds `FLAP_HEIGHT ∈ [100, 400]`, `MOTOR_SPACING ∈ [80, 300]`.
-/

/-- `SimulationConfig` of the flap-height variant (`types.ts`). -/
structure SimulationConfig where
  actuatorExtension : ℝ
  flapHeight : ℝ
  motorSpacing : ℝ
  animationSpeed : ℝ

/-- `CONSTRAINTS.COLLISION.START_ANGLE`. -/
def START_ANGLE : ℝ := 0

/-- `CONSTRAINTS.COLLISION.END_ANGLE`. -/
def END_ANGLE : ℝ := -160

/-- `CONSTRAINTS.COLLISION.PRECISION` (degrees per scan step). -/
def PRECISION : ℝ := 0.5

/-- The static geometry record returned by this variant's `staticGeo`
`useMemo`. -/
structure StaticGeo where
  pivot : Pt ℝ
  motorPivot : Pt ℝ
  flapX : ℝ
  fixedX : ℝ
  mountLength : ℝ
  localNutY : ℝ
  screenBottomY : ℝ
  screenRightX : ℝ
  topPanelBottomY : ℝ

/-!
The bindings of the `staticGeo` `useMemo` body of the flap-height variant,
lifted to named definitions in source order.
-/

/-- `topPanelBottomY = LAYOUT.TOP_MARGIN + FRAME.THICKNESS + 100` (fixed
top panel height 100). -/
noncomputable def topPanelBottomY : ℝ := 20 + 4 + 100

/-- `flapTopY_Closed = topPanelBottomY - MECHANICS.OVERLAP_REGION`. -/
noncomputable def flapTopY_Closed : ℝ := topPanelBottomY - 60

/-- `flapBottomY_Closed = flapTopY_Closed + flapHeight`. -/
noncomputable def flapBottomY_Closed (flapHeight : ℝ) : ℝ := flapTopY_Closed + flapHeight

/-- `pivotY = flapBottomY_Closed + MECHANICS.FLAP_OFFSET_Y`. -/
noncomputable def pivotY (flapHeight : ℝ) : ℝ := flapBottomY_Closed flapHeight + 25

/-- `motorPivotY = pivotY + motorSpacing`. -/
noncomputable def motorPivotY (flapHeight motorSpacing : ℝ) : ℝ :=
  pivotY flapHeight + motorSpacing

/-- `centerLineX = LAYOUT.ORIGIN_X + FRAME.WIDTH / 2`. -/
noncomputable def centerLineX : ℝ := 650 + 35 / 2

/-- `fixedInsulationX = centerLineX - INSULATION.THICKNESS / 2`. -/
noncomputable def fixedInsulationX : ℝ := centerLineX - 20 / 2

/-- `flapX_Closed = fixedInsulationX - INSULATION.THICKNESS`. -/
noncomputable def flapX_Closed : ℝ := fixedInsulationX - 20

/-- `bracketX = flapX_Closed - MECHANICS.BRACKET_WIDTH`. -/
noncomputable def bracketX : ℝ := flapX_Closed - 15

/-- `pivotX = bracketX + MECHANICS.BRACKET_WIDTH / 2`. -/
noncomputable def pivotX : ℝ := bracketX + 15 / 2

/-- `motorPivotX = fixedInsulationX - MOTOR.HINGE_THICKNESS / 2`. -/
noncomputable def motorPivotX : ℝ := fixedInsulationX - 5 / 2

/-- `obstaclePoint = {x: bracketX - 5, y: pivotY + 10}` (corner of the
metal bracket). -/
noncomputable def obstaclePoint (flapHeight : ℝ) : Pt ℝ :=
  ⟨bracketX - 5, pivotY flapHeight + 10⟩

/-- `motorPivot = {x: motorPivotX, y: motorPivotY}`. -/
noncomputable def motorPivot (flapHeight motorSpacing : ℝ) : Pt ℝ :=
  ⟨motorPivotX, motorPivotY flapHeight motorSpacing⟩

/-- `localNutY = -(flapHeight + FLAP_OFFSET_Y) + MOUNT_MARGIN_TOP +
MOUNT_HEIGHT / 2`. -/
noncomputable def localNutY (flapHeight : ℝ) : ℝ := -(flapHeight + 25) + 20 + 20 / 2

/-- `globalNutY = pivotY + localNutY`. -/
noncomputable def globalNutY (flapHeight : ℝ) : ℝ := pivotY flapHeight + localNutY flapHeight

/-- `slope = (obstaclePoint.y - motorPivot.y) / (obstaclePoint.x -
motorPivot.x)`. -/
noncomputable def slope (flapHeight motorSpacing : ℝ) : ℝ :=
  ((obstaclePoint flapHeight).y - (motorPivot flapHeight motorSpacing).y) /
    ((obstaclePoint flapHeight).x - (motorPivot flapHeight motorSpacing).x)

/-- `requiredNutX = motorPivot.x + (globalNutY - motorPivot.y) / slope`:
the X where the line from the motor pivot through the obstacle crosses
the horizontal line `y = globalNutY`. -/
noncomputable def requiredNutX (flapHeight motorSpacing : ℝ) : ℝ :=
  (motorPivot flapHeight motorSpacing).x +
    (globalNutY flapHeight - (motorPivot flapHeight motorSpacing).y) /
      slope flapHeight motorSpacing

/-- `mountLength = Math.max(30, flapX_Closed - requiredNutX)`. -/
noncomputable def mountLength (flapHeight motorSpacing : ℝ) : ℝ :=
  max 30 (flapX_Closed - requiredNutX flapHeight motorSpacing)

/-- The `staticGeo` `useMemo` body of the flap-height variant, assembling
the record returned by the source from the definitions above, as a
function of its dependency array `[flapHeight, motorSpacing]`. -/
noncomputable def staticGeoCore (flapHeight motorSpacing : ℝ) : StaticGeo :=
  { pivot := ⟨pivotX, pivotY flapHeight⟩
    motorPivot := motorPivot flapHeight motorSpacing
    flapX := flapX_Closed
    fixedX := fixedInsulationX
    mountLength := mountLength flapHeight motorSpacing
    localNutY := localNutY flapHeight
    screenBottomY := motorPivotY flapHeight motorSpacing + 80 + 25 + 4  -- + CHANNEL_DEPTH + THICKNESS
    screenRightX := 650 + 35
    topPanelBottomY }

/-- `staticGeo` of the flap-height variant, recomputed when `flapHeight`
or `motorSpacing` change (its `useMemo` dependency array). -/
noncomputable def staticGeo (c : SimulationConfig) : StaticGeo :=
  staticGeoCore c.flapHeight c.motorSpacing

/-- The record returned by this variant's `solveKinematics`. -/
structure KinState where
  nutGlobal : Pt ℝ
  motorAngleRad : ℝ
  shaftStartGlobal : Pt ℝ
  distPivotToNut : ℝ

/-!
The bindings of this variant's `solveKinematics`, lifted to named
definitions (each reads `staticGeo` fields, so each is a function of
`flapHeight` and `motorSpacing`, plus the candidate angle).
-/

/-- `localNutX = (staticGeo.flapX - staticGeo.mountLength) -
staticGeo.pivot.x` (negative: the nut is left of the flap face). -/
noncomputable def localNutX (flapHeight motorSpacing : ℝ) : ℝ :=
  flapX_Closed - mountLength flapHeight motorSpacing - pivotX

/-- `nutGlobal`: the nut position orbiting the main pivot. -/
noncomputable def nutGlobal (flapHeight motorSpacing angleDeg : ℝ) : Pt ℝ :=
  rotatePoint
    ⟨pivotX + localNutX flapHeight motorSpacing, pivotY flapHeight + localNutY flapHeight⟩
    ⟨pivotX, pivotY flapHeight⟩ (angleDeg * Real.pi / 180)

/-- `motorOffset = -((MOTOR.HINGE_THICKNESS / 2) + (MOTOR.HEIGHT / 2))`:
the rod leaves the actuator body off-axis. -/
noncomputable def motorOffset : ℝ := -(5 / 2 + 40 / 2)

/-- `distPivotToNut = getDistance(staticGeo.motorPivot, nutGlobal)`. -/
noncomputable def distPivotToNut (flapHeight motorSpacing angleDeg : ℝ) : ℝ :=
  getDistance (motorPivot flapHeight motorSpacing) (nutGlobal flapHeight motorSpacing angleDeg)

/-- `directAngle = getAngle(staticGeo.motorPivot, nutGlobal)`. -/
noncomputable def directAngle (flapHeight motorSpacing angleDeg : ℝ) : ℝ :=
  getAngle (motorPivot flapHeight motorSpacing) (nutGlobal flapHeight motorSpacing angleDeg)

/-- `angleCorrection = Math.asin(Math.max(-1, Math.min(1, motorOffset /
distPivotToNut)))`. -/
noncomputable def angleCorrection (flapHeight motorSpacing angleDeg : ℝ) : ℝ :=
  Real.arcsin (max (-1) (min 1 (motorOffset / distPivotToNut flapHeight motorSpacing angleDeg)))

/-- `motorAngleRad = directAngle - angleCorrection`. -/
noncomputable def motorAngleRad (flapHeight motorSpacing angleDeg : ℝ) : ℝ :=
  directAngle flapHeight motorSpacing angleDeg - angleCorrection flapHeight motorSpacing angleDeg

/-- `shaftStartGlobal`: the end of the hinge leaf
(`shaftStartLocal = (HINGE_LEAF_LENGTH, motorOffset)`) rotated by the
motor angle about the motor pivot. -/
noncomputable def shaftStartGlobal (flapHeight motorSpacing angleDeg : ℝ) : Pt ℝ :=
  rotatePoint
    ⟨(motorPivot flapHeight motorSpacing).x + 70,
     (motorPivot flapHeight motorSpacing).y + motorOffset⟩
    (motorPivot flapHeight motorSpacing) (motorAngleRad flapHeight motorSpacing angleDeg)

/-- `solveKinematics` of the flap-height variant, as a function of the
config fields it reads and the candidate angle. -/
noncomputable def solveKinematicsCore (flapHeight motorSpacing angleDeg : ℝ) : KinState :=
  ⟨nutGlobal flapHeight motorSpacing angleDeg,
   motorAngleRad flapHeight motorSpacing angleDeg,
   shaftStartGlobal flapHeight motorSpacing angleDeg,
   distPivotToNut flapHeight motorSpacing angleDeg⟩

/-- `solveKinematics` at the config level. -/
noncomputable def solveKinematics (c : SimulationConfig) (angleDeg : ℝ) : KinState :=
  solveKinematicsCore c.flapHeight c.motorSpacing angleDeg

/-- `fixedShaftLength`: rod length fixed from the closed state
(`zeroState = solveKinematics(0)`,
`getDistance(zeroState.shaftStartGlobal, zeroState.nutGlobal) + 25`). -/
noncomputable def fixedShaftLengthCore (flapHeight motorSpacing : ℝ) : ℝ :=
  getDistance (shaftStartGlobal flapHeight motorSpacing 0) (nutGlobal flapHeight motorSpacing 0)
    + 25

/-- The first motor body corner checked against the fixed wall:
`(MOTOR.HINGE_LEAF_LENGTH, -MOTOR.HINGE_THICKNESS / 2)`. -/
noncomputable def motorCorner1 : Pt ℝ := ⟨70, -5 / 2⟩

/-- The second motor body corner:
`(HINGE_LEAF_LENGTH - WIDTH, -HINGE_THICKNESS / 2 - HEIGHT)`. -/
noncomputable def motorCorner2 : Pt ℝ := ⟨70 - 50, -5 / 2 - 40⟩

/-- A motor corner rotated about the motor pivot by the motor angle (the
body of the corner loop in `checkCollision`). -/
noncomputable def motorCornerGlobal (flapHeight motorSpacing angleDeg : ℝ) (p : Pt ℝ) : Pt ℝ :=
  rotatePoint
    ⟨(motorPivot flapHeight motorSpacing).x + p.x, (motorPivot flapHeight motorSpacing).y + p.y⟩
    (motorPivot flapHeight motorSpacing) (motorAngleRad flapHeight motorSpacing angleDeg)

/-- The flap polygon of the SAT check at the candidate angle: the corners
TL, TR, BR, BL of the flap slab (`flapW = INSULATION.THICKNESS`,
`flapH = flapHeight`, `flapTL = (staticGeo.flapX - pivot.x,
-(FLAP_OFFSET_Y + flapH))`) rotated about the pivot. -/
noncomputable def polyFlap (flapHeight angleDeg : ℝ) : List (Pt ℝ) :=
  let rad := angleDeg * Real.pi / 180
  let piv : Pt ℝ := ⟨pivotX, pivotY flapHeight⟩
  let tlx := flapX_Closed - pivotX
  let tly := -(25 + flapHeight)
  [rotatePoint ⟨pivotX + tlx, pivotY flapHeight + tly⟩ piv rad,
   rotatePoint ⟨pivotX + tlx + 20, pivotY flapHeight + tly⟩ piv rad,
   rotatePoint ⟨pivotX + tlx + 20, pivotY flapHeight + tly + flapHeight⟩ piv rad,
   rotatePoint ⟨pivotX + tlx, pivotY flapHeight + tly + flapHeight⟩ piv rad]

/-- The rod polygon of the SAT check: a rectangle of half thickness
`MOTOR.ROD_THICKNESS / 2 + 1` along the motor direction, from
`shaftStartGlobal` to `fixedShaftLength` further. -/
noncomputable def polyRod (flapHeight motorSpacing angleDeg : ℝ) : List (Pt ℝ) :=
  let rodDir : Pt ℝ :=
    ⟨Real.cos (motorAngleRad flapHeight motorSpacing angleDeg),
     Real.sin (motorAngleRad flapHeight motorSpacing angleDeg)⟩
  let perp : Pt ℝ := ⟨-rodDir.y, rodDir.x⟩
  let halfThick : ℝ := 8 / 2 + 1
  let p1 := shaftStartGlobal flapHeight motorSpacing angleDeg
  let fsl := fixedShaftLengthCore flapHeight motorSpacing
  let p2 : Pt ℝ := ⟨p1.x + rodDir.x * fsl, p1.y + rodDir.y * fsl⟩
  [⟨p1.x + perp.x * halfThick, p1.y + perp.y * halfThick⟩,
   ⟨p1.x - perp.x * halfThick, p1.y - perp.y * halfThick⟩,
   ⟨p2.x - perp.x * halfThick, p2.y - perp.y * halfThick⟩,
   ⟨p2.x + perp.x * halfThick, p2.y + perp.y * halfThick⟩]

/-- `checkCollision` of the flap-height variant: in order, the
nut-to-hinge minimum-distance check
(`minSafeDist = HINGE_LEAF_LENGTH + NUT_WIDTH / 2 + 2`), the half-plane
check of the two motor corners against the fixed wall (the source's
corner loop, unrolled), and the SAT rod-versus-flap polygon test. -/
noncomputable def checkCollisionCore (flapHeight motorSpacing angleDeg : ℝ) : Bool :=
  if distPivotToNut flapHeight motorSpacing angleDeg < 70 + 18 / 2 + 2 then true
  else if (motorCornerGlobal flapHeight motorSpacing angleDeg motorCorner1).x >
      fixedInsulationX then true
  else if (motorCornerGlobal flapHeight motorSpacing angleDeg motorCorner2).x >
      fixedInsulationX then true
  else polygonsIntersect (polyFlap flapHeight angleDeg) (polyRod flapHeight motorSpacing angleDeg)

/-- `checkCollision` at the config level. -/
noncomputable def checkCollision (c : SimulationConfig) (angleDeg : ℝ) : Bool :=
  checkCollisionCore c.flapHeight c.motorSpacing angleDeg

/-- The scanned candidate angle of loop step `i`:
`START_ANGLE - i * PRECISION`, i.e. `0, -0.5, -1, …` (each such value is
exactly representable in binary floating point, so the exact-real grid
coincides with the source's). -/
noncomputable def scanAngle (i : ℕ) : ℝ :=
  START_ANGLE - i * PRECISION

/-- The `for` loop of the `maxAngleDeg` `useMemo`, from step `i` onward:
the loop runs while `a = START_ANGLE - i·PRECISION ≥ END_ANGLE`, i.e.
while `i ≤ 320`; at the first step whose angle collides it returns
`a + PRECISION`, and if the loop finishes it returns `END_ANGLE`. -/
noncomputable def scanLoop (cc : ℝ → Bool) (i : ℕ) : ℝ :=
  if 320 < i then END_ANGLE
  else if cc (scanAngle i) then scanAngle i + PRECISION
  else scanLoop cc (i + 1)
termination_by 321 - i
decreasing_by omega

/-- The body of the `maxAngleDeg` `useMemo`, generic in the collision
predicate: an immediate check of `START_ANGLE`, then the linear scan. -/
noncomputable def findMaxAngle (cc : ℝ → Bool) : ℝ :=
  if cc START_ANGLE then START_ANGLE
  else scanLoop cc 0

/-- `maxAngleDeg` of the flap-height variant as a function of the
`useMemo` dependency array (`flapHeight`, `motorSpacing`; the third listed
dependency `fixedShaftLength` is itself a function of these two). -/
noncomputable def maxAngleDegCore (flapHeight motorSpacing : ℝ) : ℝ :=
  findMaxAngle (checkCollisionCore flapHeight motorSpacing)

/-- `maxAngleDeg` at the config level. -/
noncomputable def maxAngleDeg (c : SimulationConfig) : ℝ :=
  maxAngleDegCore c.flapHeight c.motorSpacing

/-- `currentAngleDeg = (actuatorExtension / 100) * maxAngleDeg` (forward
mapping of the extension percentage). -/
noncomputable def currentAngleDeg (c : SimulationConfig) : ℝ :=
  c.actuatorExtension / 100 * maxAngleDeg c

/-- The declared user-input bounds of this variant
(`CONSTRAINTS.FLAP_HEIGHT`, `CONSTRAINTS.MOTOR_SPACING`). -/
def InBounds (c : SimulationConfig) : Prop :=
  100 ≤ c.flapHeight ∧ c.flapHeight ≤ 400 ∧ 80 ≤ c.motorSpacing ∧ c.motorSpacing ≤ 300

end VariantB

/-- Claim C5: the SAT collision test `polygonsIntersect` applied to two
axis-aligned unit squares returns `true` at offset `(0.5, 0)`, `false` at
offset `(1.5, 0)`, and at the edge-touching offset `(1.0, 0)` it
deterministically returns `true` (strict comparisons mean touching
intervals are not a gap). -/
theorem polygonsIntersect_unit_squares :
    polygonsIntersect (unitSquareAt 0) (unitSquareAt (mkRat 1 2)) = true ∧
    polygonsIntersect (unitSquareAt 0) (unitSquareAt (mkRat 3 2)) = false ∧
    polygonsIntersect (unitSquareAt 0) (unitSquareAt 1) = true := by
  refine ⟨?_, ?_, ?_⟩ <;>
    norm_num [polygonsIntersect, axesOf, unitSquareAt, isGap, projectPolygon,
      dotAxis, edgeNormal, List.all, List.range_succ, List.foldl, min_def, max_def]

/-- Numeric value of the gap-height variant's pivot x. -/
theorem pivotX_A : VariantA.pivotX = 657 := by
  norm_num [VariantA.pivotX, VariantA.barLeftX, VariantA.barRightX, VariantA.flapLeftX_Closed,
    VariantA.flapRightX_Closed, VariantA.fixedInsulationLeftX, VariantA.frameCenterX]

/-- Numeric value of the gap-height variant's pivot y. -/
theorem pivotY_A (g : ℝ) : VariantA.pivotY g = 169 + g := by
  norm_num [VariantA.pivotY, VariantA.flapBottomY_Closed, VariantA.botPanelTopY,
    VariantA.topPanelBottomY, VariantA.topPanelTopY, VariantA.screenTopY]
  ring

/-- Numeric value of the gap-height variant's motor x. -/
theorem motorCenterX_A (s : ℝ) : VariantA.motorCenterX s = 657 - s := by
  rw [VariantA.motorCenterX, pivotX_A]

/-- Numeric value of the gap-height variant's mount-hole local y. -/
theorem mountHoleLocal_y_A (g : ℝ) : (VariantA.mountHoleLocal g).y = -(68 + g) := by
  rw [VariantA.mountHoleLocal]
  show VariantA.topHoleGlobalY_Closed - VariantA.pivotY g = -(68 + g)
  rw [pivotY_A]
  norm_num [VariantA.topHoleGlobalY_Closed, VariantA.flapTopY_Closed, VariantA.topPanelBottomY,
    VariantA.topPanelTopY, VariantA.screenTopY]
  ring

/-- Numeric value of the gap-height variant's flap-mount radius when the
gap is not absurdly negative. -/
theorem flapMountRadius_A (g : ℝ) (hg : -68 ≤ g) : VariantA.flapMountRadius g = 68 + g := by
  rw [VariantA.flapMountRadius, mountHoleLocal_y_A, abs_neg, abs_of_nonneg (by linarith)]

/-- Numeric value of the gap-height variant's safety line x. -/
theorem safetyX_A (s : ℝ) : VariantA.safetyX s = 668 - s := by
  rw [VariantA.safetyX, VariantA.shaftRightX, motorCenterX_A]
  ring

/-- `Math.atan2` recovers the angle of a positively scaled direction
vector when the angle lies in the principal range `(-π, π]`. -/
theorem atan2_polar (r θ : ℝ) (hr : 0 < r) (h1 : -Real.pi < θ) (h2 : θ ≤ Real.pi) :
    atan2 (r * Real.sin θ) (r * Real.cos θ) = θ := by
  rw [atan2]
  have hz : (⟨r * Real.cos θ, r * Real.sin θ⟩ : ℂ) =
      (r : ℂ) * (Complex.cos θ + Complex.sin θ * Complex.I) := by
    rw [Complex.mk_eq_add_mul_I, ← Complex.ofReal_cos, ← Complex.ofReal_sin]
    push_cast
    ring
  rw [hz]
  exact Complex.arg_mul_cos_add_sin_mul_I hr ⟨h1, h2⟩

/-- The clamped analytic maximum angle of the gap-height variant is never
positive (the `Math.min(0, ...)` clamp). -/
theorem maxAngleDegStatic_nonpos (g s : ℝ) : VariantA.maxAngleDegStatic g s ≤ 0 := by
  rw [VariantA.maxAngleDegStatic]
  apply max_le
  · norm_num
  · exact min_le_left 0 _

/-- The clamped analytic maximum angle of the gap-height variant never
goes below the hinge hard stop (the `Math.max(-170, ...)` clamp). -/
theorem maxAngleDegStatic_ge (g s : ℝ) : -170 ≤ VariantA.maxAngleDegStatic g s :=
  le_max_left _ _

/-- For in-bounds configurations the analytic branch of the gap-height
variant is taken, the clamp of the `asin` argument is a no-op and both
final clamps are no-ops: the maximum angle is exactly
`asin ((11 - s) / (68 + g))` in degrees. -/
theorem maxAngleDegStatic_eval (g s : ℝ) (hg1 : 60 ≤ g) (hs1 : 24 ≤ s) (hs2 : s ≤ 60) :
    VariantA.maxAngleDegStatic g s = Real.arcsin ((11 - s) / (68 + g)) * 180 / Real.pi := by
  have hr1 : VariantA.flapMountRadius g = 68 + g := flapMountRadius_A g (by linarith)
  have hrpos : (0 : ℝ) < 68 + g := by linarith
  have hv_ub : (11 - s) / (68 + g) ≤ 0 :=
    div_nonpos_of_nonpos_of_nonneg (by linarith) hrpos.le
  have hv_lb : (-1 : ℝ) < (11 - s) / (68 + g) :=
    (lt_div_iff₀ hrpos).mpr (by nlinarith)
  have hcond : |VariantA.safetyX s - VariantA.pivotX| < VariantA.flapMountRadius g := by
    rw [safetyX_A, pivotX_A, hr1, show (668 : ℝ) - s - 657 = 11 - s by ring,
      abs_of_nonpos (by linarith)]
    linarith
  have hval : (VariantA.safetyX s - VariantA.pivotX) / VariantA.flapMountRadius g =
      (11 - s) / (68 + g) := by
    rw [safetyX_A, pivotX_A, hr1, show (668 : ℝ) - s - 657 = 11 - s by ring]
  have harcsin_le : Real.arcsin ((11 - s) / (68 + g)) ≤ 0 := Real.arcsin_nonpos.mpr hv_ub
  have hx_le : Real.arcsin ((11 - s) / (68 + g)) * 180 / Real.pi ≤ 0 :=
    div_nonpos_of_nonpos_of_nonneg (by nlinarith) Real.pi_pos.le
  have hx_ge : (-170 : ℝ) ≤ Real.arcsin ((11 - s) / (68 + g)) * 180 / Real.pi := by
    rw [le_div_iff₀ Real.pi_pos]
    have h1 : -(Real.pi / 2) ≤ Real.arcsin ((11 - s) / (68 + g)) :=
      Real.neg_pi_div_two_le_arcsin _
    nlinarith [Real.pi_pos]
  simp only [VariantA.maxAngleDegStatic, VariantA.maxAngleDegSolved]
  rw [if_pos hcond, hval,
    min_eq_right (show (11 - s) / (68 + g) ≤ (1 : ℝ) by linarith),
    max_eq_right hv_lb.le, min_eq_right hx_le, max_eq_right hx_ge]

/-- The circle-circle intersection root selection of
`solveAngleFromNutY`: if the point `(Px + vx, Py + vy)` lies on the
circle of radius `r1` about `(Px, Py)` and on the circle of radius `r2`
about `(Nx, Ny)`, and lies on the nonnegative-cross-product side of the
pivot-to-target direction, then the root the source formulas pick
(`x3_2`, `y3_2`) is exactly that point. -/
theorem circle_pick_root (Px Py Nx Ny r1 r2 vx vy d a h : ℝ)
    (hd : d = Real.sqrt ((Nx - Px) ^ 2 + (Ny - Py) ^ 2))
    (ha : a = (r1 * r1 - r2 * r2 + d * d) / (2 * d))
    (hh : h = Real.sqrt (max 0 (r1 * r1 - a * a)))
    (hF1 : vx * vx + vy * vy = r1 * r1)
    (hF2 : (Px + vx - Nx) ^ 2 + (Py + vy - Ny) ^ 2 = r2 * r2)
    (hcross : 0 ≤ (Nx - Px) * vy - (Ny - Py) * vx)
    (hW : 0 < (Nx - Px) ^ 2 + (Ny - Py) ^ 2) :
    Px + a * (Nx - Px) / d - h * (Ny - Py) / d = Px + vx ∧
    Py + a * (Ny - Py) / d + h * (Nx - Px) / d = Py + vy := by
  set wx := Nx - Px with hwx
  set wy := Ny - Py with hwy
  have hWnn : (0 : ℝ) ≤ wx ^ 2 + wy ^ 2 := by positivity
  have hd2 : d * d = wx ^ 2 + wy ^ 2 := by rw [hd]; exact Real.mul_self_sqrt hWnn
  have hdpos : 0 < d := by rw [hd]; exact Real.sqrt_pos.mpr hW
  have hdne : d ≠ 0 := ne_of_gt hdpos
  set dot := wx * vx + wy * vy with hdot
  set cross := wx * vy - wy * vx with hcrossdef
  have had : a * d = dot := by
    rw [ha, div_mul_eq_mul_div, mul_comm (2 : ℝ) d, ← div_div,
      mul_div_assoc, div_self hdne, mul_one, hd2]
    have hexp : r2 * r2 = r1 * r1 - 2 * dot + (wx ^ 2 + wy ^ 2) := by
      rw [← hF2, ← hF1, hdot, hwx, hwy]
      ring
    rw [hexp]
    ring
  have ha2 : a = dot / d := by
    rw [eq_div_iff hdne]
    exact had
  have hlagrange : dot ^ 2 + cross ^ 2 = (wx ^ 2 + wy ^ 2) * (r1 * r1) := by
    rw [hdot, hcrossdef, ← hF1]
    ring
  have hWne : wx ^ 2 + wy ^ 2 ≠ 0 := ne_of_gt hW
  have hd2' : d ^ 2 = wx ^ 2 + wy ^ 2 := by rw [sq]; exact hd2
  have hsq : r1 * r1 - a * a = (cross / d) ^ 2 := by
    rw [ha2, div_pow, hd2', div_mul_div_comm, hd2,
      eq_div_iff hWne, sub_mul, div_mul_cancel₀ _ hWne]
    linear_combination - hlagrange
  have hcdnn : 0 ≤ cross / d := div_nonneg hcross hdpos.le
  have hheq : h = cross / d := by
    rw [hh, hsq, max_eq_right (sq_nonneg _), Real.sqrt_sq hcdnn]
  have hkeyx : dot * wx - cross * wy = vx * (wx ^ 2 + wy ^ 2) := by
    rw [hdot, hcrossdef]
    ring
  have hkeyy : dot * wy + cross * wx = vy * (wx ^ 2 + wy ^ 2) := by
    rw [hdot, hcrossdef]
    ring
  have hx : a * wx / d - h * wy / d = vx := by
    rw [ha2, hheq, div_mul_eq_mul_div, div_div, div_mul_eq_mul_div, div_div,
      div_sub_div_same, hd2, hkeyx, mul_div_cancel_right₀ _ hWne]
  have hy : a * wy / d + h * wx / d = vy := by
    rw [ha2, hheq, div_mul_eq_mul_div, div_div, div_mul_eq_mul_div, div_div,
      div_add_div_same, hd2, hkeyy, mul_div_cancel_right₀ _ hWne]
  constructor
  · linarith [hx]
  · linarith [hy]

/-- Bounds on the squared pivot-to-nut distance of the inverse solve: it
lies between the squared radii difference and sum of the two-link solve. -/
theorem W_bounds_aux (g s dx dy cc : ℝ)
    (hr1sq : (dx - s) ^ 2 + cc ^ 2 = (68 + g) ^ 2)
    (hdy_sq : dy * dy = 4900 - dx * dx)
    (hdx_lb : 11 ≤ dx) (hdx_ub : dx ≤ s) (hs2 : s ≤ 60)
    (hdy_nonneg : 0 ≤ dy) (hdy_le : dy ≤ 70)
    (hcc_nonneg : 0 ≤ cc) (hcc_le : cc ≤ 68 + g) (hg1 : 60 ≤ g) :
    (g - 2) ^ 2 ≤ s ^ 2 + (dy - cc) ^ 2 ∧ s ^ 2 + (dy - cc) ^ 2 ≤ (138 + g) ^ 2 := by
  constructor
  · nlinarith [mul_nonneg (show (0 : ℝ) ≤ dx by linarith)
        (show (0 : ℝ) ≤ s - dx by linarith),
      mul_le_mul hcc_le hdy_le hdy_nonneg (show (0 : ℝ) ≤ 68 + g by linarith)]
  · nlinarith [mul_nonneg hcc_nonneg hdy_nonneg,
      mul_le_mul (show dx ≤ 60 by linarith) (show s - dx ≤ 49 by linarith)
        (show (0 : ℝ) ≤ s - dx by linarith) (by norm_num : (0 : ℝ) ≤ 60)]

/-- The chosen circle-circle root lies on the nonnegative-cross side. -/
theorem cross_aux (s dx dy cc : ℝ) (h1 : 0 ≤ cc) (h2 : 0 ≤ dy)
    (h3 : 11 ≤ dx) (h4 : dx ≤ s) :
    0 ≤ -s * -cc - (dy - cc) * (dx - s) := by
  nlinarith [mul_nonneg h1 (show (0 : ℝ) ≤ dx by linarith),
    mul_nonneg h2 (show (0 : ℝ) ≤ s - dx by linarith)]

set_option maxHeartbeats 2000000 in
/-- The heart of the inverse kinematics of the gap-height variant: at any
in-bounds configuration and any angle `A` in `[maxAngleDeg, 0]`, feeding
the forward-solved nut height back into `solveAngleFromNutY` recovers `A`
exactly. -/
theorem solveAngleFromNutY_roundtrip (c : VariantA.SimulationConfig) (A : ℝ)
    (hg1 : 60 ≤ c.gapHeight) (hg2 : c.gapHeight ≤ 220)
    (hs1 : 24 ≤ c.motorSpacing) (hs2 : c.motorSpacing ≤ 60)
    (hA1 : VariantA.maxAngleDegStatic c.gapHeight c.motorSpacing ≤ A) (hA2 : A ≤ 0) :
    VariantA.solveAngleFromNutY c ((VariantA.solveKinematics c A).nut.y) = A := by
  set g := c.gapHeight with hgdef
  set s := c.motorSpacing with hsdef
  have hπ := Real.pi_pos
  set α := A * Real.pi / 180 with hαdef
  have hrpos : (0 : ℝ) < 68 + g := by linarith
  have hr1 : VariantA.flapMountRadius g = 68 + g := flapMountRadius_A g (by linarith)
  have hmax := maxAngleDegStatic_eval g s hg1 hs1 hs2
  have hv_ub : (11 - s) / (68 + g) ≤ 0 :=
    div_nonpos_of_nonpos_of_nonneg (by linarith) hrpos.le
  have hv_lb : (-1 : ℝ) < (11 - s) / (68 + g) :=
    (lt_div_iff₀ hrpos).mpr (by nlinarith)
  have hα_le : α ≤ 0 := by
    rw [hαdef]
    exact div_nonpos_of_nonpos_of_nonneg
      (mul_nonpos_iff.mpr (Or.inr ⟨hA2, hπ.le⟩)) (by norm_num)
  have hα_ge_arcsin : Real.arcsin ((11 - s) / (68 + g)) ≤ α := by
    rw [hmax] at hA1
    rw [div_le_iff₀ hπ] at hA1
    rw [hαdef, le_div_iff₀ (by norm_num : (0 : ℝ) < 180)]
    linarith
  have hα_gt : -(Real.pi / 2) < α :=
    lt_of_lt_of_le (Real.neg_pi_div_two_lt_arcsin.mpr hv_lb) hα_ge_arcsin
  have hsin_le : Real.sin α ≤ 0 := by
    have h1 : 0 ≤ Real.sin (-α) :=
      Real.sin_nonneg_of_nonneg_of_le_pi (by linarith) (by linarith)
    rw [Real.sin_neg] at h1
    linarith
  have hcos_nonneg : 0 ≤ Real.cos α :=
    Real.cos_nonneg_of_mem_Icc ⟨by linarith, by linarith⟩
  have hsin_ge : (11 - s) / (68 + g) ≤ Real.sin α := by
    have h1 : Real.sin (Real.arcsin ((11 - s) / (68 + g))) ≤ Real.sin α := by
      apply Real.strictMonoOn_sin.monotoneOn (Real.arcsin_mem_Icc _)
        ⟨hα_gt.le, by linarith⟩ hα_ge_arcsin
    rw [Real.sin_arcsin hv_lb.le (by linarith)] at h1
    exact h1
  have hcos_shift : Real.cos (α - Real.pi / 2) = Real.sin α := by
    rw [show α - Real.pi / 2 = -(Real.pi / 2 - α) by ring, Real.cos_neg,
      Real.cos_pi_div_two_sub]
  have hsin_shift : Real.sin (α - Real.pi / 2) = -Real.cos α := by
    rw [show α - Real.pi / 2 = -(Real.pi / 2 - α) by ring, Real.sin_neg,
      Real.sin_pi_div_two_sub]
  have heff : VariantA.effectiveAngle A = α - Real.pi / 2 := by
    rw [VariantA.effectiveAngle, VariantA.flapMountBaseAngle, hαdef]
    ring
  have hFx : (VariantA.flapMountAt g A).x = 657 + (68 + g) * Real.sin α := by
    show VariantA.pivotX + VariantA.flapMountRadius g * Real.cos (VariantA.effectiveAngle A) = _
    rw [pivotX_A, hr1, heff, hcos_shift]
  have hFy : (VariantA.flapMountAt g A).y = 169 + g - (68 + g) * Real.cos α := by
    show VariantA.pivotY g + VariantA.flapMountRadius g * Real.sin (VariantA.effectiveAngle A) = _
    rw [pivotY_A, hr1, heff, hsin_shift]
    ring
  set dx := s + (68 + g) * Real.sin α with hdxdef
  have hdx_lb : 11 ≤ dx := by
    have h2 : (68 + g) * ((11 - s) / (68 + g)) = 11 - s := by
      field_simp
    have h1 : (68 + g) * ((11 - s) / (68 + g)) ≤ (68 + g) * Real.sin α :=
      mul_le_mul_of_nonneg_left hsin_ge hrpos.le
    rw [h2] at h1
    rw [hdxdef]
    linarith
  have hdx_ub : dx ≤ s := by
    have h1 : (68 + g) * Real.sin α ≤ 0 :=
      mul_nonpos_iff.mpr (Or.inl ⟨hrpos.le, hsin_le⟩)
    rw [hdxdef]
    linarith
  have hdx_eval : VariantA.dxAt g s A = dx := by
    rw [VariantA.dxAt, motorCenterX_A, hFx,
      show 657 - s - (657 + (68 + g) * Real.sin α) = -dx by rw [hdxdef]; ring,
      abs_neg, abs_of_nonneg (by linarith)]
  have hdx2 : dx * dx ≤ 3600 := by
    have h60 : dx * dx ≤ 60 * 60 :=
      mul_le_mul (by linarith) (by linarith) (by linarith) (by norm_num)
    linarith
  set dy := Real.sqrt (4900 - dx * dx) with hdydef
  have hdy_eval : VariantA.dyAt g s A = dy := by
    rw [VariantA.dyAt, hdx_eval, hdydef,
      show VariantA.LINK_LENGTH ^ 2 = (4900 : ℝ) by norm_num [VariantA.LINK_LENGTH],
      max_eq_right (by linarith)]
  have hdy_nonneg : 0 ≤ dy := Real.sqrt_nonneg _
  have hdy_sq : dy * dy = 4900 - dx * dx := Real.mul_self_sqrt (by linarith)
  have hdy_le : dy ≤ 70 := by
    nlinarith [hdy_sq, hdy_nonneg, sq_nonneg (dy - 70), mul_self_nonneg dx]
  set cc := (68 + g) * Real.cos α with hccdef
  have hcc_nonneg : 0 ≤ cc := mul_nonneg hrpos.le hcos_nonneg
  have hcc_le : cc ≤ 68 + g := by
    rw [hccdef]
    calc (68 + g) * Real.cos α ≤ (68 + g) * 1 :=
          mul_le_mul_of_nonneg_left (Real.cos_le_one α) hrpos.le
      _ = 68 + g := mul_one _
  have hNy : (VariantA.solveKinematics c A).nut.y = 169 + g - cc + dy := by
    show (VariantA.flapMountAt g A).y + VariantA.dyAt g s A = _
    rw [hFy, hdy_eval]
  set W := s ^ 2 + (dy - cc) ^ 2 with hWdef
  have hr1sq : (dx - s) ^ 2 + cc ^ 2 = (68 + g) ^ 2 := by
    rw [hdxdef, hccdef]
    linear_combination (68 + g) ^ 2 * Real.sin_sq_add_cos_sq α
  obtain ⟨hW_lb, hW_ub⟩ :=
    W_bounds_aux g s dx dy cc hr1sq hdy_sq hdx_lb hdx_ub hs2 hdy_nonneg hdy_le
      hcc_nonneg hcc_le hg1
  have hW_pos : 0 < W := by
    have h1 : (0 : ℝ) < (g - 2) ^ 2 := pow_pos (by linarith) 2
    linarith
  have hWnn : 0 ≤ W := hW_pos.le
  have hsqrtW_ub : Real.sqrt W ≤ 68 + g + 70 := by
    rw [show (68 : ℝ) + g + 70 = Real.sqrt ((138 + g) ^ 2) by
      rw [Real.sqrt_sq (by linarith)]; ring]
    exact Real.sqrt_le_sqrt hW_ub
  have hsqrtW_lb : g - 2 ≤ Real.sqrt W := by
    rw [show g - 2 = Real.sqrt ((g - 2) ^ 2) by rw [Real.sqrt_sq (by linarith)]]
    exact Real.sqrt_le_sqrt hW_lb
  have hsqrtW_pos : 0 < Real.sqrt W := by linarith
  have hPproj : (VariantA.staticGeo c).pivot = (⟨657, 169 + g⟩ : Pt ℝ) := by
    show (⟨VariantA.pivotX, VariantA.pivotY g⟩ : Pt ℝ) = _
    rw [pivotX_A, pivotY_A]
  have hMproj : (VariantA.staticGeo c).motorPos.x = 657 - s := by
    show VariantA.motorCenterX s = _
    exact motorCenterX_A s
  have hr1proj : (VariantA.staticGeo c).flapMountRadius = 68 + g := hr1
  have hbase : (VariantA.staticGeo c).flapMountBaseAngle = -(Real.pi / 2) := rfl
  have hdarg : ((657 - s) - 657) ^ 2 + ((169 + g - cc + dy) - (169 + g)) ^ 2 = W := by
    rw [hWdef]
    ring
  have hdist : getDistance ⟨657, 169 + g⟩ ⟨657 - s, 169 + g - cc + dy⟩ = Real.sqrt W := by
    rw [getDistance]
    exact congrArg Real.sqrt hdarg
  have habs70 : |68 + g - (70 : ℝ)| = g - 2 := by
    rw [show (68 : ℝ) + g - 70 = g - 2 by ring]
    exact abs_of_nonneg (by linarith)
  have hguard : ¬(Real.sqrt W > 68 + g + (70 : ℝ) ∨
      Real.sqrt W < |68 + g - (70 : ℝ)| ∨ Real.sqrt W = 0) := by
    push_neg
    refine ⟨?_, ?_, ne_of_gt hsqrtW_pos⟩
    · exact hsqrtW_ub
    · rw [habs70]
      exact hsqrtW_lb
  have e1 : (657 : ℝ) + (68 + g) * Real.sin α - (657 - s) = dx := by
    rw [hdxdef]; ring
  have e2 : (169 : ℝ) + g + -cc - (169 + g - cc + dy) = -dy := by ring
  have e3 : ((657 : ℝ) - s) - 657 = -s := by ring
  have e4 : (169 : ℝ) + g - cc + dy - (169 + g) = dy - cc := by ring
  have e5 : (68 + g) * Real.sin α = dx - s := by
    rw [hdxdef]; ring
  have e6 : (169 : ℝ) + g + -cc - (169 + g) = (68 + g) * Real.sin (α - Real.pi / 2) := by
    rw [hsin_shift, hccdef]; ring
  have e7 : (657 : ℝ) + (68 + g) * Real.sin α - 657 = (68 + g) * Real.cos (α - Real.pi / 2) := by
    rw [hcos_shift]; ring
  obtain ⟨hx3, hy3⟩ := circle_pick_root 657 (169 + g) (657 - s) (169 + g - cc + dy)
    (68 + g) 70 ((68 + g) * Real.sin α) (-cc) (Real.sqrt W)
    (((68 + g) * (68 + g) - 70 * 70 + Real.sqrt W * Real.sqrt W) / (2 * Real.sqrt W))
    (Real.sqrt (max 0 ((68 + g) * (68 + g) -
      ((68 + g) * (68 + g) - 70 * 70 + Real.sqrt W * Real.sqrt W) / (2 * Real.sqrt W) *
      (((68 + g) * (68 + g) - 70 * 70 + Real.sqrt W * Real.sqrt W) / (2 * Real.sqrt W)))))
    (congrArg Real.sqrt hdarg.symm) rfl rfl
    (by rw [hccdef]; linear_combination (68 + g) * (68 + g) * Real.sin_sq_add_cos_sq α)
    (by rw [e1, e2]; linear_combination hdy_sq)
    (by rw [e3, e4, e5]; exact cross_aux s dx dy cc hcc_nonneg hdy_nonneg hdx_lb hdx_ub)
    (by rw [hdarg]; exact hW_pos)
  simp only [VariantA.solveAngleFromNutY, VariantA.LINK_LENGTH, hdist, hr1proj, hbase,
    hPproj, hMproj, hNy]
  rw [if_neg hguard]
  rw [hx3, hy3, sub_neg_eq_add]
  rw [e6, e7, atan2_polar (68 + g) (α - Real.pi / 2) hrpos (by linarith) (by linarith)]
  rw [hαdef]
  field_simp
  ring

/-- The scan starts at the closed angle: step 0 is `START_ANGLE`. -/
theorem scanAngle_zero : VariantB.scanAngle 0 = VariantB.START_ANGLE := by
  simp [VariantB.scanAngle]

/-- Claim C6: round-trip of forward and inverse kinematics in the
circle-circle variant: for every in-bounds configuration and every angle
`A` in the valid range `[maxAngleDeg, 0]`, computing the nut position via
`solveKinematics A` and applying `solveAngleFromNutY` to the resulting
nut height recovers `A` within the 1e-3 degree tolerance (the recovery is
in fact exact over the reals). -/
theorem solveKinematics_roundtrip_tolerance (c : VariantA.SimulationConfig) (A : ℝ)
    (hc : VariantA.InBounds c)
    (hA1 : (VariantA.staticGeo c).maxAngleDeg ≤ A) (hA2 : A ≤ 0) :
    |VariantA.solveAngleFromNutY c ((VariantA.solveKinematics c A).nut.y) - A| ≤ 1 / 1000 := by
  obtain ⟨hg1, hg2, hs1, hs2⟩ := hc
  rw [solveAngleFromNutY_roundtrip c A hg1 hg2 hs1 hs2 hA1 hA2, sub_self, abs_zero]
  norm_num

/-- Witness for claim C6 at the default configuration, at the closed
angle `A = 0`. -/
theorem solveKinematics_roundtrip_tolerance_witness :
    |VariantA.solveAngleFromNutY ⟨0, 120, 0, 30⟩
        ((VariantA.solveKinematics ⟨0, 120, 0, 30⟩ 0).nut.y) - 0| ≤ 1 / 1000 :=
  solveKinematics_roundtrip_tolerance ⟨0, 120, 0, 30⟩ 0
    ⟨by norm_num, by norm_num, by norm_num, by norm_num⟩
    (maxAngleDegStatic_nonpos 120 30) le_rfl

/-- The nut height of the gap-height variant's forward solve is a
continuous function of the angle. -/
theorem nutY_continuous (c : VariantA.SimulationConfig) :
    Continuous (fun A : ℝ => (VariantA.solveKinematics c A).nut.y) := by
  have hf : (fun A : ℝ => (VariantA.solveKinematics c A).nut.y) =
      fun A : ℝ => (VariantA.flapMountAt c.gapHeight A).y +
        VariantA.dyAt c.gapHeight c.motorSpacing A := rfl
  rw [hf]
  simp only [VariantA.flapMountAt, VariantA.dyAt, VariantA.dxAt, VariantA.effectiveAngle]
  refine Continuous.add (Continuous.add continuous_const ?_) ?_
  · exact continuous_const.mul (Real.continuous_sin.comp (by continuity))
  · refine Real.continuous_sqrt.comp (Continuous.max continuous_const ?_)
    continuity

/-- The inverse mapping of the gap-height variant respects the angle
bounds: for in-bounds configurations and extensions in `[0, 100]`, the
recovered `currentAngleDeg` lies in `[maxAngleDeg, 0]`. -/
theorem currentAngleDeg_A_bounds (c : VariantA.SimulationConfig)
    (hc : VariantA.InBounds c)
    (he1 : 0 ≤ c.actuatorExtension) (he2 : c.actuatorExtension ≤ 100) :
    (VariantA.staticGeo c).maxAngleDeg ≤ VariantA.currentAngleDeg c ∧
      VariantA.currentAngleDeg c ≤ 0 := by
  obtain ⟨hg1, hg2, hs1, hs2⟩ := hc
  have hcont := nutY_continuous c
  set f : ℝ → ℝ := fun A => (VariantA.solveKinematics c A).nut.y with hfdef
  have hmaxle : (VariantA.staticGeo c).maxAngleDeg ≤ (0 : ℝ) :=
    maxAngleDegStatic_nonpos c.gapHeight c.motorSpacing
  set t := c.actuatorExtension / 100 with htdef
  have ht0 : 0 ≤ t := by positivity
  have ht1 : t ≤ 1 := by
    rw [htdef, div_le_one (by norm_num : (0 : ℝ) < 100)]
    exact he2
  have hval : VariantA.currentNutY c =
      f 0 + t * (f ((VariantA.staticGeo c).maxAngleDeg) - f 0) := rfl
  have hex : ∃ x ∈ Set.Icc ((VariantA.staticGeo c).maxAngleDeg) 0,
      f x = VariantA.currentNutY c := by
    rcases le_total (f 0) (f ((VariantA.staticGeo c).maxAngleDeg)) with hle | hle
    · have hsub := intermediate_value_Icc' hmaxle hcont.continuousOn
      have hmem : VariantA.currentNutY c ∈
          Set.Icc (f 0) (f ((VariantA.staticGeo c).maxAngleDeg)) := by
        rw [hval]
        constructor
        · nlinarith
        · nlinarith
      exact hsub hmem
    · have hsub := intermediate_value_Icc hmaxle hcont.continuousOn
      have hmem : VariantA.currentNutY c ∈
          Set.Icc (f ((VariantA.staticGeo c).maxAngleDeg)) (f 0) := by
        rw [hval]
        constructor
        · nlinarith
        · nlinarith
      exact hsub hmem
  obtain ⟨x, hx, hfx⟩ := hex
  have hrt := solveAngleFromNutY_roundtrip c x hg1 hg2 hs1 hs2 hx.1 hx.2
  have hcur : VariantA.currentAngleDeg c = x := by
    rw [VariantA.currentAngleDeg, ← hfx]
    exact hrt
  rw [hcur]
  exact ⟨hx.1, hx.2⟩

/-- Unfolding the scan loop: behaviour of `scanLoop` from any step `i`,
by downward induction on the remaining fuel. Either some step at or after
`i` is the first colliding step (and the loop returns its angle plus one
step), or no scanned step collides and the loop returns `END_ANGLE`. -/
theorem scanLoop_spec (cc : ℝ → Bool) :
    ∀ n i, 321 = i + n → (∀ j, j < i → cc (VariantB.scanAngle j) = false) →
      (∃ k, i ≤ k ∧ k ≤ 320 ∧ cc (VariantB.scanAngle k) = true ∧
        (∀ j, j < k → cc (VariantB.scanAngle j) = false) ∧
        VariantB.scanLoop cc i = VariantB.scanAngle k + VariantB.PRECISION) ∨
      ((∀ j, j ≤ 320 → cc (VariantB.scanAngle j) = false) ∧
        VariantB.scanLoop cc i = VariantB.END_ANGLE) := by
  intro n
  induction n with
  | zero =>
    intro i hi hprior
    right
    have h321 : i = 321 := by omega
    subst h321
    constructor
    · intro j hj
      exact hprior j (by omega)
    · rw [VariantB.scanLoop]
      simp
  | succ n ih =>
    intro i hi hprior
    have hle : i ≤ 320 := by omega
    by_cases hc : cc (VariantB.scanAngle i) = true
    · left
      refine ⟨i, le_refl i, hle, hc, hprior, ?_⟩
      rw [VariantB.scanLoop, if_neg (by omega), if_pos hc]
    · have hc' : cc (VariantB.scanAngle i) = false := by
        cases h : cc (VariantB.scanAngle i) <;> simp_all
      have hstep : VariantB.scanLoop cc i = VariantB.scanLoop cc (i + 1) := by
        rw [VariantB.scanLoop, if_neg (by omega), if_neg (by simp [hc'])]
      have hprior2 : ∀ j, j < i + 1 → cc (VariantB.scanAngle j) = false := by
        intro j hj
        rcases Nat.lt_succ_iff_lt_or_eq.mp hj with h | h
        · exact hprior j h
        · subst h; exact hc'
      rcases ih (i + 1) (by omega) hprior2 with ⟨k, hk1, hk2, hk3, hk4, hk5⟩ | ⟨hall, hend⟩
      · exact Or.inl ⟨k, by omega, hk2, hk3, hk4, hstep.trans hk5⟩
      · exact Or.inr ⟨hall, hstep.trans hend⟩

/-- The three possible outcomes of `findMaxAngle`: a collision at the
closed position, a first colliding scan step `k ≥ 1`, or a clean scan
ending at the hard bound. -/
theorem findMaxAngle_spec (cc : ℝ → Bool) :
    (cc VariantB.START_ANGLE = true ∧ VariantB.findMaxAngle cc = VariantB.START_ANGLE) ∨
    (∃ k, 1 ≤ k ∧ k ≤ 320 ∧ cc (VariantB.scanAngle k) = true ∧
      (∀ j, j < k → cc (VariantB.scanAngle j) = false) ∧
      VariantB.findMaxAngle cc = VariantB.scanAngle k + VariantB.PRECISION) ∨
    ((∀ j, j ≤ 320 → cc (VariantB.scanAngle j) = false) ∧
      VariantB.findMaxAngle cc = VariantB.END_ANGLE) := by
  by_cases h0 : cc VariantB.START_ANGLE = true
  · exact Or.inl ⟨h0, by rw [VariantB.findMaxAngle, if_pos h0]⟩
  · have h0' : cc VariantB.START_ANGLE = false := by
      cases h : cc VariantB.START_ANGLE <;> simp_all
    have hbase : VariantB.findMaxAngle cc = VariantB.scanLoop cc 0 := by
      rw [VariantB.findMaxAngle, if_neg (by simp [h0'])]
    rcases scanLoop_spec cc 321 0 rfl (by omega) with ⟨k, _, hk2, hk3, hk4, hk5⟩ | ⟨hall, hend⟩
    · refine Or.inr (Or.inl ⟨k, ?_, hk2, hk3, hk4, hbase.trans hk5⟩)
      rcases Nat.eq_zero_or_pos k with rfl | hpos
      · rw [scanAngle_zero] at hk3; rw [hk3] at h0'; cases h0'
      · exact hpos
    · exact Or.inr (Or.inr ⟨hall, hbase.trans hend⟩)

/-- Numeric form of a scanned angle. -/
theorem scanAngle_eq (i : ℕ) : VariantB.scanAngle i = -(i : ℝ) / 2 := by
  simp [VariantB.scanAngle, VariantB.START_ANGLE, VariantB.PRECISION]
  ring

/-- The scan result always lies between the hard bound and the closed
angle, whatever the collision predicate does. -/
theorem findMaxAngle_mem (cc : ℝ → Bool) :
    VariantB.END_ANGLE ≤ VariantB.findMaxAngle cc ∧
      VariantB.findMaxAngle cc ≤ VariantB.START_ANGLE := by
  rcases findMaxAngle_spec cc with ⟨_, heq⟩ | ⟨k, hk1, hk2, _, _, heq⟩ | ⟨_, heq⟩ <;> rw [heq]
  · constructor <;> norm_num [VariantB.END_ANGLE, VariantB.START_ANGLE]
  · have h1 : (1 : ℝ) ≤ (k : ℝ) := by exact_mod_cast hk1
    have h2 : (k : ℝ) ≤ 320 := by exact_mod_cast hk2
    rw [scanAngle_eq]
    constructor
    · simp only [VariantB.END_ANGLE, VariantB.PRECISION]
      norm_num
      linarith
    · simp only [VariantB.START_ANGLE, VariantB.PRECISION]
      norm_num
      linarith
  · constructor
    · exact le_refl _
    · norm_num [VariantB.END_ANGLE, VariantB.START_ANGLE]

/-- Claim C3: for every in-bounds configuration and every extension
percentage in `[0, 100]`, the assembled system state satisfies
`maxAngleDeg ≤ currentAngleDeg ≤ 0` (negative-angle convention), both for
the forward mapping `currentAngle = (extension/100) * maxAngle` of the
flap-height variant and for the inverse-kinematics mapping of the
gap-height variant that recovers the angle from the interpolated nut
position. -/
theorem currentAngleDeg_between (cB : VariantB.SimulationConfig) (cA : VariantA.SimulationConfig)
    (heB1 : 0 ≤ cB.actuatorExtension) (heB2 : cB.actuatorExtension ≤ 100)
    (hcA : VariantA.InBounds cA)
    (heA1 : 0 ≤ cA.actuatorExtension) (heA2 : cA.actuatorExtension ≤ 100) :
    (VariantB.maxAngleDeg cB ≤ VariantB.currentAngleDeg cB ∧
      VariantB.currentAngleDeg cB ≤ 0) ∧
    ((VariantA.staticGeo cA).maxAngleDeg ≤ VariantA.currentAngleDeg cA ∧
      VariantA.currentAngleDeg cA ≤ 0) := by
  refine ⟨?_, currentAngleDeg_A_bounds cA hcA heA1 heA2⟩
  have hm := findMaxAngle_mem (VariantB.checkCollision cB)
  have hm1 : (-160 : ℝ) ≤ VariantB.maxAngleDeg cB := hm.1
  have hm2 : VariantB.maxAngleDeg cB ≤ 0 := hm.2
  have hcur : VariantB.currentAngleDeg cB =
      cB.actuatorExtension / 100 * VariantB.maxAngleDeg cB := rfl
  set t := cB.actuatorExtension / 100 with htdef
  have ht0 : 0 ≤ t := by positivity
  have ht1 : t ≤ 1 := by
    rw [htdef, div_le_one (by norm_num : (0 : ℝ) < 100)]
    exact heB2
  constructor
  · rw [hcur]
    nlinarith [mul_nonneg (sub_nonneg.mpr ht1) (neg_nonneg.mpr hm2)]
  · rw [hcur]
    nlinarith [mul_nonneg ht0 (neg_nonneg.mpr hm2)]

/-- Witness for claim C3 at the default configurations of both variants
with extension 0. -/
theorem currentAngleDeg_between_witness :
    (VariantB.maxAngleDeg ⟨0, 125, 120, 0⟩ ≤ VariantB.currentAngleDeg ⟨0, 125, 120, 0⟩ ∧
      VariantB.currentAngleDeg ⟨0, 125, 120, 0⟩ ≤ 0) ∧
    ((VariantA.staticGeo ⟨0, 120, 0, 30⟩).maxAngleDeg ≤
        VariantA.currentAngleDeg ⟨0, 120, 0, 30⟩ ∧
      VariantA.currentAngleDeg ⟨0, 120, 0, 30⟩ ≤ 0) :=
  currentAngleDeg_between ⟨0, 125, 120, 0⟩ ⟨0, 120, 0, 30⟩ (by norm_num) (by norm_num)
    ⟨by norm_num, by norm_num, by norm_num, by norm_num⟩ (by norm_num) (by norm_num)

/-- Claim C1: the collision scanner sweeps candidate angles from 0°
toward the open direction in fixed steps of `PRECISION` (0.5°), stopping
at the first angle where `checkCollision` fires and returning that angle
plus one step; if `checkCollision(0)` is already true it returns 0, and
if no candidate collides it returns the hard bound `END_ANGLE = -160`.
For every configuration, the returned value is exactly one of these
three cases. -/
theorem maxAngleDeg_scan_trichotomy (c : VariantB.SimulationConfig) :
    (VariantB.checkCollision c VariantB.START_ANGLE = true ∧
      VariantB.maxAngleDeg c = VariantB.START_ANGLE) ∨
    (∃ k, 1 ≤ k ∧ k ≤ 320 ∧
      VariantB.checkCollision c (VariantB.scanAngle k) = true ∧
      (∀ j, j < k → VariantB.checkCollision c (VariantB.scanAngle j) = false) ∧
      VariantB.maxAngleDeg c = VariantB.scanAngle k + VariantB.PRECISION) ∨
    ((∀ j, j ≤ 320 → VariantB.checkCollision c (VariantB.scanAngle j) = false) ∧
      VariantB.maxAngleDeg c = VariantB.END_ANGLE) :=
  findMaxAngle_spec (VariantB.checkCollision c)

/-- Claim C10: for every configuration the returned `maxAngleDeg` lies in
the closed interval `[END_ANGLE, START_ANGLE] = [-160, 0]`; it is either
`START_ANGLE` (0), of the form `a + PRECISION` for a scanned angle `a`,
or `END_ANGLE` itself, so it is never positive and never below the hard
mechanical bound. -/
theorem maxAngleDeg_range (c : VariantB.SimulationConfig) :
    VariantB.END_ANGLE ≤ VariantB.maxAngleDeg c ∧
    VariantB.maxAngleDeg c ≤ VariantB.START_ANGLE ∧
    (VariantB.maxAngleDeg c = VariantB.START_ANGLE ∨
      (∃ k, 1 ≤ k ∧ k ≤ 320 ∧
        VariantB.maxAngleDeg c = VariantB.scanAngle k + VariantB.PRECISION) ∨
      VariantB.maxAngleDeg c = VariantB.END_ANGLE) := by
  have hmem := findMaxAngle_mem (VariantB.checkCollision c)
  refine ⟨hmem.1, hmem.2, ?_⟩
  rcases findMaxAngle_spec (VariantB.checkCollision c) with ⟨_, heq⟩ |
    ⟨k, hk1, hk2, _, _, heq⟩ | ⟨_, heq⟩
  · exact Or.inl heq
  · exact Or.inr (Or.inl ⟨k, hk1, hk2, heq⟩)
  · exact Or.inr (Or.inr heq)

/-- Claim C9: the statically solved `mountLength` equals the maximum of
the declared floor 30 and the analytic clearance `flapX_Closed -
requiredNutX`, where `requiredNutX` is the intersection of the line from
the motor pivot through the obstacle point `(bracketX - 5, pivotY + 10)`
with the horizontal line `y = globalNutY`; consequently it never violates
the floor 30. -/
theorem mountLength_formula (c : VariantB.SimulationConfig) :
    (VariantB.staticGeo c).mountLength =
      max 30 ((VariantB.staticGeo c).flapX -
        ((VariantB.staticGeo c).motorPivot.x +
          ((VariantB.staticGeo c).pivot.y + (VariantB.staticGeo c).localNutY -
              (VariantB.staticGeo c).motorPivot.y) /
            (((VariantB.staticGeo c).pivot.y + 10 - (VariantB.staticGeo c).motorPivot.y) /
              ((VariantB.staticGeo c).flapX - 15 - 5 - (VariantB.staticGeo c).motorPivot.x)))) ∧
    30 ≤ (VariantB.staticGeo c).mountLength := by
  constructor
  · rfl
  · exact le_max_left 30 _

/-- Claim C8: the forward kinematic solve of the two-bar variant places
the nut on the vertical line `x = motorPos.x`, at
`y = flapMount.y + sqrt (max 0 (linkLength^2 - dx^2))` with
`dx = |motorPos.x - flapMount.x|`, and that root is never above the
flap-mount pin (y grows downward, so `nut.y ≥ flapMount.y`). -/
theorem solveKinematics_nut_root (c : VariantA.SimulationConfig) (angleDeg : ℝ) :
    (VariantA.solveKinematics c angleDeg).nut.x = (VariantA.staticGeo c).motorPos.x ∧
    (VariantA.solveKinematics c angleDeg).nut.y =
      (VariantA.solveKinematics c angleDeg).flapMount.y +
        Real.sqrt (max 0 (VariantA.LINK_LENGTH ^ 2 -
          |(VariantA.staticGeo c).motorPos.x -
            (VariantA.solveKinematics c angleDeg).flapMount.x| ^ 2)) ∧
    (VariantA.solveKinematics c angleDeg).flapMount.y ≤
      (VariantA.solveKinematics c angleDeg).nut.y := by
  refine ⟨rfl, ?_, ?_⟩
  · show (VariantA.solveKinematics c angleDeg).flapMount.y +
        Real.sqrt (max 0 (VariantA.LINK_LENGTH ^ 2 -
          |(VariantA.staticGeo c).motorPos.x -
            (VariantA.solveKinematics c angleDeg).flapMount.x| *
          |(VariantA.staticGeo c).motorPos.x -
            (VariantA.solveKinematics c angleDeg).flapMount.x|)) = _
    rw [← pow_two]
  · show (VariantA.solveKinematics c angleDeg).flapMount.y ≤
      (VariantA.solveKinematics c angleDeg).flapMount.y + Real.sqrt _
    exact le_add_of_nonneg_right (Real.sqrt_nonneg _)

/-- Claim C4: two configurations that are identical except in
`actuatorExtension` and/or `animationSpeed` produce the same
`maxAngleDeg` and the same static geometry — the collision scan and the
statically solved coordinates are functions of `flapHeight` and
`motorSpacing` only (the `useMemo` dependency arrays). -/
theorem maxAngleDeg_staticGeo_extension_invariant (c1 c2 : VariantB.SimulationConfig)
    (hf : c1.flapHeight = c2.flapHeight) (hm : c1.motorSpacing = c2.motorSpacing) :
    VariantB.maxAngleDeg c1 = VariantB.maxAngleDeg c2 ∧
      VariantB.staticGeo c1 = VariantB.staticGeo c2 := by
  rw [VariantB.maxAngleDeg, VariantB.maxAngleDeg, VariantB.staticGeo, VariantB.staticGeo,
    hf, hm]
  exact ⟨rfl, rfl⟩

/-- Witness for claim C4: the default geometry with extension 0, speed 0
against extension 100, speed 2. -/
theorem maxAngleDeg_staticGeo_extension_invariant_witness :
    VariantB.maxAngleDeg ⟨0, 125, 120, 0⟩ = VariantB.maxAngleDeg ⟨100, 125, 120, 2⟩ ∧
      VariantB.staticGeo ⟨0, 125, 120, 0⟩ = VariantB.staticGeo ⟨100, 125, 120, 2⟩ :=
  maxAngleDeg_staticGeo_extension_invariant ⟨0, 125, 120, 0⟩ ⟨100, 125, 120, 2⟩ rfl rfl

/-- Claim C7: whenever the target nut position is geometrically
infeasible for the two-link solve (`d > r1 + r2`, `d < |r1 - r2|` or
`d = 0`), `solveAngleFromNutY` returns the defined fallback angle 0. -/
theorem solveAngleFromNutY_fallback (c : VariantA.SimulationConfig) (targetY : ℝ)
    (h : getDistance (VariantA.staticGeo c).pivot
          ⟨(VariantA.staticGeo c).motorPos.x, targetY⟩ >
            (VariantA.staticGeo c).flapMountRadius + VariantA.LINK_LENGTH ∨
        getDistance (VariantA.staticGeo c).pivot
          ⟨(VariantA.staticGeo c).motorPos.x, targetY⟩ <
            |(VariantA.staticGeo c).flapMountRadius - VariantA.LINK_LENGTH| ∨
        getDistance (VariantA.staticGeo c).pivot
          ⟨(VariantA.staticGeo c).motorPos.x, targetY⟩ = 0) :
    VariantA.solveAngleFromNutY c targetY = 0 := by
  rw [VariantA.solveAngleFromNutY]
  exact if_pos h

/-- Witness for claim C7 at the default configuration and a target far
below the reachable annulus. -/
theorem solveAngleFromNutY_fallback_witness :
    VariantA.solveAngleFromNutY ⟨0, 120, 0, 30⟩ 589 = 0 := by
  apply solveAngleFromNutY_fallback
  left
  show getDistance (VariantA.staticGeoCore 120 30).pivot
      ⟨(VariantA.staticGeoCore 120 30).motorPos.x, 589⟩ >
      (VariantA.staticGeoCore 120 30).flapMountRadius + VariantA.LINK_LENGTH
  have hpiv : (VariantA.staticGeoCore 120 30).pivot = (⟨657, 289⟩ : Pt ℝ) := by
    show (⟨VariantA.pivotX, VariantA.pivotY 120⟩ : Pt ℝ) = _
    rw [pivotX_A, pivotY_A]
    norm_num
  have hmx : (VariantA.staticGeoCore 120 30).motorPos.x = 627 := by
    show VariantA.motorCenterX 30 = 627
    rw [motorCenterX_A]
    norm_num
  have hr : (VariantA.staticGeoCore 120 30).flapMountRadius = 188 := by
    show VariantA.flapMountRadius 120 = 188
    rw [flapMountRadius_A 120 (by norm_num)]
    norm_num
  rw [hpiv, hmx, hr, getDistance, VariantA.LINK_LENGTH]
  have h1 : ((627 : ℝ) - 657) ^ 2 + (589 - 289) ^ 2 = 90900 := by norm_num
  rw [h1]
  have h2 : (188 : ℝ) + 70 = Real.sqrt (258 ^ 2) := by
    rw [Real.sqrt_sq] <;> norm_num
  rw [h2]
  apply Real.sqrt_lt_sqrt <;> norm_num


/-! ### Claim C2: the scan stops one step before the first collision -/

/-- Rotating a point by zero radians is the identity. -/
theorem rotatePoint_zero (p c : Pt ℝ) : rotatePoint p c 0 = p := by
  obtain ⟨px, py⟩ := p
  simp [rotatePoint]

/-- `getDistance` on literal points. -/
theorem getDistance_mk (x1 y1 x2 y2 : ℝ) :
    getDistance ⟨x1, y1⟩ ⟨x2, y2⟩ = Real.sqrt ((x2 - x1) ^ 2 + (y2 - y1) ^ 2) := rfl

/-- `getAngle` on literal points. -/
theorem getAngle_mk (x1 y1 x2 y2 : ℝ) :
    getAngle ⟨x1, y1⟩ ⟨x2, y2⟩ = atan2 (y2 - y1) (x2 - x1) := rfl

/-- Numeric value of the flap-height variant's `pivotX`. -/
theorem pivotX_B : VariantB.pivotX = 630 := by
  norm_num [VariantB.pivotX, VariantB.bracketX, VariantB.flapX_Closed,
    VariantB.fixedInsulationX, VariantB.centerLineX]

/-- Numeric value of the flap-height variant's `fixedInsulationX`. -/
theorem fixedX_B : VariantB.fixedInsulationX = 657.5 := by
  norm_num [VariantB.fixedInsulationX, VariantB.centerLineX]

/-- Numeric value of the flap-height variant's `flapX_Closed`. -/
theorem flapX_B : VariantB.flapX_Closed = 637.5 := by
  norm_num [VariantB.flapX_Closed, VariantB.fixedInsulationX, VariantB.centerLineX]

/-- Numeric value of the flap-height variant's `pivotY`. -/
theorem pivotY_B (fh : ℝ) : VariantB.pivotY fh = 89 + fh := by
  simp only [VariantB.pivotY, VariantB.flapBottomY_Closed, VariantB.flapTopY_Closed,
    VariantB.topPanelBottomY]
  ring

/-- Numeric value of the flap-height variant's `localNutY`. -/
theorem localNutY_B (fh : ℝ) : VariantB.localNutY fh = 5 - fh := by
  simp only [VariantB.localNutY]
  ring

/-- The motor pivot of the flap-height variant in closed coordinates. -/
theorem motorPivot_B (fh ms : ℝ) :
    VariantB.motorPivot fh ms = ⟨655, 89 + fh + ms⟩ := by
  simp only [VariantB.motorPivot, VariantB.motorPivotY, VariantB.motorPivotX,
    VariantB.fixedInsulationX, VariantB.centerLineX]
  rw [pivotY_B]
  norm_num

/-- The x-coordinate of the motor pivot. -/
theorem motorPivotX_eval (fh ms : ℝ) : (VariantB.motorPivot fh ms).x = 655 := by
  rw [motorPivot_B]

/-- The nut at the closed angle (`0`) of the flap-height variant. -/
theorem nutGlobal_zero (fh ms : ℝ) :
    VariantB.nutGlobal fh ms 0 = ⟨637.5 - VariantB.mountLength fh ms, 94⟩ := by
  simp only [VariantB.nutGlobal]
  rw [zero_mul, zero_div, rotatePoint_zero]
  have hx : VariantB.pivotX + VariantB.localNutX fh ms =
      637.5 - VariantB.mountLength fh ms := by
    simp only [VariantB.localNutX]
    rw [flapX_B]
    ring
  have hy : VariantB.pivotY fh + VariantB.localNutY fh = 94 := by
    rw [pivotY_B, localNutY_B]
    ring
  rw [hx, hy]

/-- With both `cos θ` and `sin θ` negative,
`70·cos θ + 17.5·sin θ < -17.5`: the rod direction necessarily points the
shaft start strictly behind the flap's inner face. -/
theorem cos_sin_combo_lt (θ : ℝ) (hc : Real.cos θ < 0) (hs : Real.sin θ < 0) :
    70 * Real.cos θ + 17.5 * Real.sin θ < -17.5 := by
  have hs1 : -1 ≤ Real.sin θ := Real.neg_one_le_sin θ
  have hc1 : -1 ≤ Real.cos θ := Real.neg_one_le_cos θ
  have hpy := Real.sin_sq_add_cos_sq θ
  nlinarith [mul_pos (neg_pos.mpr hc) (show (0 : ℝ) < 70 + 17.5 * Real.cos θ by linarith),
    mul_nonneg (neg_nonneg.mpr hs.le) (show (0 : ℝ) ≤ Real.sin θ + 1 by linarith)]

/-- At the closed angle of the flap-height variant, for any in-bounds
configuration the nut is at least 175 units from the motor pivot, and the
motor angle points down-left: both its cosine and sine are negative. -/
theorem motorAngle_zero_facts (fh ms : ℝ) (hfh : 100 ≤ fh) (hms : 80 ≤ ms) :
    175 ≤ VariantB.distPivotToNut fh ms 0 ∧
      Real.cos (VariantB.motorAngleRad fh ms 0) < 0 ∧
      Real.sin (VariantB.motorAngleRad fh ms 0) < 0 := by
  have hml : (30 : ℝ) ≤ VariantB.mountLength fh ms := le_max_left _ _
  obtain ⟨aa, haa_def⟩ : ∃ t : ℝ, t = fh + ms - 5 := ⟨_, rfl⟩
  obtain ⟨bb, hbb_def⟩ : ∃ t : ℝ, t = 17.5 + VariantB.mountLength fh ms := ⟨_, rfl⟩
  have haa : (175 : ℝ) ≤ aa := by rw [haa_def]; linarith
  have hbb : (47.5 : ℝ) ≤ bb := by rw [hbb_def]; linarith
  have hsum_pos : (0 : ℝ) < aa ^ 2 + bb ^ 2 := by
    nlinarith [mul_pos (show (0 : ℝ) < aa by linarith) (show (0 : ℝ) < aa by linarith),
      sq_nonneg bb]
  have hd0' : VariantB.distPivotToNut fh ms 0 = Real.sqrt (aa ^ 2 + bb ^ 2) := by
    simp only [VariantB.distPivotToNut]
    rw [nutGlobal_zero, motorPivot_B, getDistance_mk]
    congr 1
    rw [haa_def, hbb_def]
    ring
  obtain ⟨d0, hd0_def⟩ : ∃ t : ℝ, t = Real.sqrt (aa ^ 2 + bb ^ 2) := ⟨_, rfl⟩
  have hd0 : VariantB.distPivotToNut fh ms 0 = d0 := by rw [hd0_def]; exact hd0'
  have hd0_ge : (175 : ℝ) ≤ d0 := by
    rw [hd0_def, Real.le_sqrt (by norm_num) hsum_pos.le]
    nlinarith [sq_nonneg bb, sq_nonneg (aa - 175)]
  have hd0_pos : (0 : ℝ) < d0 := lt_of_lt_of_le (by norm_num) hd0_ge
  have hd0_ne : d0 ≠ 0 := ne_of_gt hd0_pos
  have hd0_sq : d0 ^ 2 = aa ^ 2 + bb ^ 2 := by
    rw [hd0_def]
    exact Real.sq_sqrt hsum_pos.le
  have hfrac1 : (-1 : ℝ) ≤ -22.5 / d0 := by
    rw [neg_div]
    apply neg_le_neg
    rw [div_le_one hd0_pos]
    linarith
  have hfrac2 : (-22.5 : ℝ) / d0 ≤ 1 := by
    have h1 : (-22.5 : ℝ) / d0 ≤ 0 :=
      div_nonpos_of_nonpos_of_nonneg (by norm_num) hd0_pos.le
    linarith
  have hclamp : max (-1) (min 1 (VariantB.motorOffset / d0)) = -22.5 / d0 := by
    have hmo : VariantB.motorOffset = -22.5 := by
      simp only [VariantB.motorOffset]
      norm_num
    rw [hmo, min_eq_right hfrac2, max_eq_right hfrac1]
  have hpsi_sin : Real.sin (VariantB.angleCorrection fh ms 0) = -22.5 / d0 := by
    simp only [VariantB.angleCorrection]
    rw [hd0, hclamp]
    exact Real.sin_arcsin hfrac1 hfrac2
  have hR_arg : (0 : ℝ) ≤ aa ^ 2 + bb ^ 2 - 506.25 := by
    nlinarith [sq_nonneg (aa - 175), sq_nonneg bb]
  obtain ⟨R, hR_def⟩ : ∃ t : ℝ, t = Real.sqrt (aa ^ 2 + bb ^ 2 - 506.25) := ⟨_, rfl⟩
  have hR_sq : R ^ 2 = aa ^ 2 + bb ^ 2 - 506.25 := by
    rw [hR_def]
    exact Real.sq_sqrt hR_arg
  have hR_nonneg : (0 : ℝ) ≤ R := by
    rw [hR_def]
    exact Real.sqrt_nonneg _
  have hR_ge_aa : aa ≤ R := by
    rw [hR_def, Real.le_sqrt (by linarith) hR_arg]
    nlinarith [sq_nonneg (bb - 47.5)]
  have hpsi_cos : Real.cos (VariantB.angleCorrection fh ms 0) = R / d0 := by
    have h1 : 1 - (-22.5 / d0) ^ 2 = (R / d0) ^ 2 := by
      rw [div_pow, div_pow, hR_sq, ← hd0_sq]
      field_simp
      ring
    simp only [VariantB.angleCorrection]
    rw [hd0, hclamp, Real.cos_arcsin, h1, Real.sqrt_sq (div_nonneg hR_nonneg hd0_pos.le)]
  have hdir : VariantB.directAngle fh ms 0 = Complex.arg ⟨-bb, -aa⟩ := by
    simp only [VariantB.directAngle]
    rw [nutGlobal_zero, motorPivot_B, getAngle_mk]
    simp only [atan2]
    congr 1
    apply Complex.ext
    · show 637.5 - VariantB.mountLength fh ms - 655 = -bb
      rw [hbb_def]
      ring
    · show (94 : ℝ) - (89 + fh + ms) = -aa
      rw [haa_def]
      ring
  have hz_ne : (⟨-bb, -aa⟩ : ℂ) ≠ 0 := by
    intro h
    have him : (-aa : ℝ) = 0 := by
      have h2 := congrArg Complex.im h
      simpa using h2
    linarith
  have habs : Complex.abs ⟨-bb, -aa⟩ = d0 := by
    rw [Complex.abs_apply, Complex.normSq_mk, hd0_def]
    congr 1
    ring
  have hcos_dA : Real.cos (VariantB.directAngle fh ms 0) = -bb / d0 := by
    rw [hdir, Complex.cos_arg hz_ne, habs]
  have hsin_dA : Real.sin (VariantB.directAngle fh ms 0) = -aa / d0 := by
    rw [hdir, Complex.sin_arg, habs]
  have hmA_eq : VariantB.motorAngleRad fh ms 0 =
      VariantB.directAngle fh ms 0 - VariantB.angleCorrection fh ms 0 := rfl
  have hcos_mA : Real.cos (VariantB.motorAngleRad fh ms 0) =
      (22.5 * aa - bb * R) / (aa ^ 2 + bb ^ 2) := by
    rw [hmA_eq, Real.cos_sub, hcos_dA, hsin_dA, hpsi_cos, hpsi_sin, ← hd0_sq]
    field_simp
    ring
  have hsin_mA : Real.sin (VariantB.motorAngleRad fh ms 0) =
      -(aa * R + 22.5 * bb) / (aa ^ 2 + bb ^ 2) := by
    rw [hmA_eq, Real.sin_sub, hsin_dA, hcos_dA, hpsi_cos, hpsi_sin, ← hd0_sq]
    field_simp
    ring
  refine ⟨by rw [hd0]; exact hd0_ge, ?_, ?_⟩
  · rw [hcos_mA]
    apply div_neg_of_neg_of_pos
    · have h475 : 47.5 * aa ≤ bb * R :=
        mul_le_mul hbb hR_ge_aa (le_trans (by norm_num) haa) (le_trans (by norm_num) hbb)
      linarith only [h475, haa]
    · exact hsum_pos
  · rw [hsin_mA]
    apply div_neg_of_neg_of_pos
    · have h1 : (0 : ℝ) < aa * R :=
        mul_pos (lt_of_lt_of_le (by norm_num) haa)
          (lt_of_lt_of_le (lt_of_lt_of_le (by norm_num) haa) hR_ge_aa)
      linarith only [h1, hbb]
    · exact hsum_pos

/-- The x-coordinate of a rotated motor corner, in terms of the motor
angle and the motor pivot. -/
theorem motorCornerGlobal_x (fh ms a : ℝ) (p : Pt ℝ) :
    (VariantB.motorCornerGlobal fh ms a p).x =
      Real.cos (VariantB.motorAngleRad fh ms a) * p.x -
        Real.sin (VariantB.motorAngleRad fh ms a) * p.y +
        (VariantB.motorPivot fh ms).x := by
  simp only [VariantB.motorCornerGlobal, rotatePoint]
  ring

/-- X-coordinate of the first motor corner at a candidate angle. -/
theorem motorCorner1_x (fh ms a : ℝ) :
    (VariantB.motorCornerGlobal fh ms a VariantB.motorCorner1).x =
      655 + 70 * Real.cos (VariantB.motorAngleRad fh ms a) +
        2.5 * Real.sin (VariantB.motorAngleRad fh ms a) := by
  rw [motorCornerGlobal_x, motorPivotX_eval]
  simp only [VariantB.motorCorner1]
  ring

/-- X-coordinate of the second motor corner at a candidate angle. -/
theorem motorCorner2_x (fh ms a : ℝ) :
    (VariantB.motorCornerGlobal fh ms a VariantB.motorCorner2).x =
      655 + 20 * Real.cos (VariantB.motorAngleRad fh ms a) +
        42.5 * Real.sin (VariantB.motorAngleRad fh ms a) := by
  rw [motorCornerGlobal_x, motorPivotX_eval]
  simp only [VariantB.motorCorner2]
  ring

/-- X-coordinate of the shaft start at the closed angle. -/
theorem shaftStart_zero_x (fh ms : ℝ) :
    (VariantB.shaftStartGlobal fh ms 0).x =
      655 + 70 * Real.cos (VariantB.motorAngleRad fh ms 0) +
        22.5 * Real.sin (VariantB.motorAngleRad fh ms 0) := by
  simp only [VariantB.shaftStartGlobal, rotatePoint, VariantB.motorOffset]
  rw [motorPivotX_eval]
  ring

/-- If some tested axis shows a gap, the SAT test reports no
intersection. -/
theorem polygonsIntersect_eq_false_of_gap {α : Type} [LinearOrderedField α]
    (polyA polyB : List (Pt α)) (axis : Pt α)
    (hmem : axis ∈ axesOf polyA ++ axesOf polyB)
    (hgap : isGap polyA polyB axis = true) :
    polygonsIntersect polyA polyB = false := by
  simp only [polygonsIntersect, List.all_eq_false]
  exact ⟨axis, hmem, by simp [hgap]⟩

/-- The edge normals of a quadrilateral, unfolded. -/
theorem axesOf_quad {α : Type} [LinearOrderedField α] (p0 p1 p2 p3 : Pt α) :
    axesOf [p0, p1, p2, p3] =
      [edgeNormal p0 p1, edgeNormal p1 p2, edgeNormal p2 p3, edgeNormal p3 p0] := by
  simp [axesOf, List.range_succ]

/-- The flap polygon at the closed angle: the closed flap slab. -/
theorem polyFlap_zero (fh : ℝ) :
    VariantB.polyFlap fh 0 =
      [⟨637.5, 64⟩, ⟨657.5, 64⟩, ⟨657.5, 64 + fh⟩, ⟨637.5, 64 + fh⟩] := by
  simp only [VariantB.polyFlap]
  rw [zero_mul, zero_div]
  simp only [rotatePoint_zero]
  rw [pivotX_B, flapX_B, pivotY_B]
  norm_num [Pt.mk.injEq]
  all_goals ring

/-- The rod is strictly left of the closed flap slab: the flap's
inner-face normal separates the two SAT polygons at the closed pose. -/
theorem polyGap_zero (fh ms : ℝ) (hfh : 100 ≤ fh)
    (hcos : Real.cos (VariantB.motorAngleRad fh ms 0) < 0)
    (hsin : Real.sin (VariantB.motorAngleRad fh ms 0) < 0) :
    polygonsIntersect (VariantB.polyFlap fh 0) (VariantB.polyRod fh ms 0) = false := by
  have hkey := cos_sin_combo_lt _ hcos hsin
  have hfhpos : (0 : ℝ) < fh := by linarith
  have hfsl : (0 : ℝ) ≤ VariantB.fixedShaftLengthCore fh ms := by
    simp only [VariantB.fixedShaftLengthCore, getDistance]
    positivity
  apply polygonsIntersect_eq_false_of_gap _ _
    (edgeNormal (⟨657.5, 64⟩ : Pt ℝ) ⟨657.5, 64 + fh⟩)
  · rw [polyFlap_zero, axesOf_quad]
    exact List.mem_append_left _
      (List.mem_cons_of_mem _ (List.mem_cons_self _ _))
  · have hax : edgeNormal (⟨657.5, 64⟩ : Pt ℝ) ⟨657.5, 64 + fh⟩ = ⟨-fh, 0⟩ := by
      simp only [edgeNormal]
      norm_num
    rw [hax, polyFlap_zero]
    simp only [VariantB.polyRod]
    rw [shaftStart_zero_x]
    simp only [isGap, projectPolygon, dotAxis, List.map_cons, List.map_nil,
      List.foldl_cons, List.foldl_nil]
    rw [Bool.or_eq_true]
    left
    rw [decide_eq_true_eq]
    obtain ⟨C, hC⟩ : ∃ t : ℝ, t = Real.cos (VariantB.motorAngleRad fh ms 0) := ⟨_, rfl⟩
    obtain ⟨S, hS⟩ : ∃ t : ℝ, t = Real.sin (VariantB.motorAngleRad fh ms 0) := ⟨_, rfl⟩
    obtain ⟨L, hL⟩ : ∃ t : ℝ, t = VariantB.fixedShaftLengthCore fh ms := ⟨_, rfl⟩
    rw [← hC] at hkey hcos ⊢
    rw [← hS] at hkey hsin ⊢
    rw [← hL] at hfsl ⊢
    have hA : (0 : ℝ) < fh * (637.5 - (655 + 70 * C + 17.5 * S)) := by
      apply mul_pos hfhpos
      linarith
    have hB : (0 : ℝ) ≤ fh * (-S) := by
      apply mul_nonneg hfhpos.le
      linarith
    have hCL : (0 : ℝ) ≤ fh * (-(C * L)) := by
      apply mul_nonneg hfhpos.le
      have h1 : C * L ≤ 0 := mul_nonpos_of_nonpos_of_nonneg hcos.le hfsl
      linarith
    simp only [max_lt_iff, lt_min_iff]
    repeat' constructor
    all_goals linarith only [hA, hB, hCL, hfhpos]

/-- At the closed angle `0`, no collision predicate of the flap-height
variant fires for any in-bounds configuration: the distance check passes,
both motor corners stay behind the fixed wall, and the rod polygon is
separated from the flap polygon. -/
theorem checkCollision_zero (fh ms : ℝ) (hfh : 100 ≤ fh) (hms : 80 ≤ ms) :
    VariantB.checkCollisionCore fh ms 0 = false := by
  obtain ⟨hd175, hcos, hsin⟩ := motorAngle_zero_facts fh ms hfh hms
  have h1 : ¬ (VariantB.distPivotToNut fh ms 0 < 70 + 18 / 2 + 2) := by
    push_neg
    linarith
  have h2 : ¬ ((VariantB.motorCornerGlobal fh ms 0 VariantB.motorCorner1).x >
      VariantB.fixedInsulationX) := by
    push_neg
    rw [motorCorner1_x, fixedX_B]
    nlinarith [hcos, hsin]
  have h3 : ¬ ((VariantB.motorCornerGlobal fh ms 0 VariantB.motorCorner2).x >
      VariantB.fixedInsulationX) := by
    push_neg
    rw [motorCorner2_x, fixedX_B]
    nlinarith [hcos, hsin]
  simp only [VariantB.checkCollisionCore]
  rw [if_neg h1, if_neg h2, if_neg h3]
  exact polyGap_zero fh ms hfh hcos hsin

/-- Claim C2: for every in-bounds configuration of the flap-height
variant, `checkCollision` reports no collision at the returned
`maxAngleDeg`, and reports a collision one scan step (`PRECISION`)
further open — unless the scan ran to the hard bound `END_ANGLE` without
finding any collision. -/
theorem maxAngleDeg_safe_boundary (c : VariantB.SimulationConfig)
    (hc : VariantB.InBounds c) :
    VariantB.checkCollision c (VariantB.maxAngleDeg c) = false ∧
      (VariantB.checkCollision c (VariantB.maxAngleDeg c - VariantB.PRECISION) = true ∨
        VariantB.maxAngleDeg c = VariantB.END_ANGLE) := by
  obtain ⟨hfh1, -, hms1, -⟩ := hc
  have hcc0 : VariantB.checkCollisionCore c.flapHeight c.motorSpacing 0 = false :=
    checkCollision_zero _ _ hfh1 hms1
  rcases findMaxAngle_spec (VariantB.checkCollisionCore c.flapHeight c.motorSpacing) with
    ⟨h0, -⟩ | ⟨k, hk1, hk2, hk3, hk4, heq⟩ | ⟨hall, heq⟩
  · rw [show VariantB.START_ANGLE = (0 : ℝ) from rfl, hcc0] at h0
    simp at h0
  · have hM : VariantB.maxAngleDeg c = VariantB.scanAngle k + VariantB.PRECISION := by
      simp only [VariantB.maxAngleDeg, VariantB.maxAngleDegCore]
      exact heq
    have hcast : ((k - 1 : ℕ) : ℝ) = (k : ℝ) - 1 := by
      rw [Nat.cast_sub hk1, Nat.cast_one]
    have hprev : VariantB.scanAngle k + VariantB.PRECISION = VariantB.scanAngle (k - 1) := by
      rw [scanAngle_eq, scanAngle_eq, hcast]
      simp only [VariantB.PRECISION]
      norm_num
      ring
    constructor
    · show VariantB.checkCollisionCore c.flapHeight c.motorSpacing
        (VariantB.maxAngleDeg c) = false
      rw [hM, hprev]
      exact hk4 (k - 1) (by omega)
    · left
      show VariantB.checkCollisionCore c.flapHeight c.motorSpacing
        (VariantB.maxAngleDeg c - VariantB.PRECISION) = true
      rw [hM, show VariantB.scanAngle k + VariantB.PRECISION - VariantB.PRECISION =
        VariantB.scanAngle k by ring]
      exact hk3
  · have hM : VariantB.maxAngleDeg c = VariantB.END_ANGLE := by
      simp only [VariantB.maxAngleDeg, VariantB.maxAngleDegCore]
      exact heq
    refine ⟨?_, Or.inr hM⟩
    show VariantB.checkCollisionCore c.flapHeight c.motorSpacing
      (VariantB.maxAngleDeg c) = false
    have hend : VariantB.END_ANGLE = VariantB.scanAngle 320 := by
      rw [scanAngle_eq]
      norm_num [VariantB.END_ANGLE]
    rw [hM, hend]
    exact hall 320 (le_refl _)

/-- Witness for C2 at the default configuration. -/
theorem maxAngleDeg_safe_boundary_witness :
    VariantB.InBounds ⟨0, 125, 120, 0⟩ ∧
      (VariantB.checkCollision ⟨0, 125, 120, 0⟩
          (VariantB.maxAngleDeg ⟨0, 125, 120, 0⟩) = false ∧
        (VariantB.checkCollision ⟨0, 125, 120, 0⟩
            (VariantB.maxAngleDeg ⟨0, 125, 120, 0⟩ - VariantB.PRECISION) = true ∨
          VariantB.maxAngleDeg ⟨0, 125, 120, 0⟩ = VariantB.END_ANGLE)) :=
  ⟨by norm_num [VariantB.InBounds],
   maxAngleDeg_safe_boundary ⟨0, 125, 120, 0⟩ (by norm_num [VariantB.InBounds])⟩


end FlapSim
